import Mathlib

/-!
Verification of the Gosh-Fetch integration layer (gosh-fetch-core and the
front-end restoration procedure) against its natural-language specification.

The Rust sources are shallowly embedded: Rust `String`/`&str` values are
modelled as `List Char` (named `Str` below), `u32`/`u64`/`usize` values as
`Nat` with explicit bounds or wrap-around (`% 2 ^ 64`) where the code casts,
`i64` as `Int`, fallible operations as `Option`, and the SQLite tables as
in-memory lists of rows.  Modelling notes:

* Rust `str::trim`, `to_lowercase`, `to_uppercase` and `to_ascii_lowercase`
  are modelled on the ASCII range (the repository only ever compares against
  ASCII literals; the Unicode-only differences are irrelevant to every claim
  and are not modelled).
* Rust integer parsing (`str::parse::<uN>`) is modelled as: optional `+`/`-`
  sign, a non-empty digit string, and a final range check.  Rust rejects
  overflow during accumulation; the result is extensionally the same.
* Rust `f64` parsing is modelled by the documented grammar of
  `f64::from_str` (sign, `inf`/`infinity`/`nan` case-insensitively, or a
  decimal number with optional fraction and exponent); a successfully parsed
  finite number is carried as the exact rational value the literal denotes
  (round-to-nearest-double is not modelled; no claim depends on it).
* SQLite `TEXT` comparison (BINARY collation) on valid UTF-8 is byte-wise,
  which coincides with code-point lexicographic order, modelled on
  `List Char`; `NULL` sorts below every value.
-/

/-- Rust strings are modelled as lists of characters. -/
abbrev Str := List Char

/-- Coerce a Lean string literal to the `Str` model. -/
def str (s : String) : Str := s.data

/-- ASCII lower-casing of one character (model of Rust lower-casing on the
ASCII range). -/
def lowerChar (c : Char) : Char :=
  match c with
  | 'A' => 'a' | 'B' => 'b' | 'C' => 'c' | 'D' => 'd' | 'E' => 'e'
  | 'F' => 'f' | 'G' => 'g' | 'H' => 'h' | 'I' => 'i' | 'J' => 'j'
  | 'K' => 'k' | 'L' => 'l' | 'M' => 'm' | 'N' => 'n' | 'O' => 'o'
  | 'P' => 'p' | 'Q' => 'q' | 'R' => 'r' | 'S' => 's' | 'T' => 't'
  | 'U' => 'u' | 'V' => 'v' | 'W' => 'w' | 'X' => 'x' | 'Y' => 'y'
  | 'Z' => 'z' | c => c

/-- ASCII upper-casing of one character (model of Rust upper-casing on the
ASCII range). -/
def upperChar (c : Char) : Char :=
  match c with
  | 'a' => 'A' | 'b' => 'B' | 'c' => 'C' | 'd' => 'D' | 'e' => 'E'
  | 'f' => 'F' | 'g' => 'G' | 'h' => 'H' | 'i' => 'I' | 'j' => 'J'
  | 'k' => 'K' | 'l' => 'L' | 'm' => 'M' | 'n' => 'N' | 'o' => 'O'
  | 'p' => 'P' | 'q' => 'Q' | 'r' => 'R' | 's' => 'S' | 't' => 'T'
  | 'u' => 'U' | 'v' => 'V' | 'w' => 'W' | 'x' => 'X' | 'y' => 'Y'
  | 'z' => 'Z' | c => c

/-- Model of Rust `str::to_lowercase` / `to_ascii_lowercase` (ASCII range). -/
def lowerStr (s : Str) : Str := s.map lowerChar

/-- Model of Rust `str::to_uppercase` (ASCII range). -/
def upperStr (s : Str) : Str := s.map upperChar

/-- Model of Rust `str::starts_with`. -/
def strStartsWith : Str → Str → Bool
  | _, [] => true
  | [], _ :: _ => false
  | c :: cs, p :: ps => c = p && strStartsWith cs ps

/-- Model of Rust `str::ends_with`. -/
def strEndsWith (s p : Str) : Bool := strStartsWith s.reverse p.reverse

/-- Model of Rust `str::contains` for a substring pattern. -/
def strContainsSub : Str → Str → Bool
  | [], p => p.isEmpty
  | c :: rest, p => strStartsWith (c :: rest) p || strContainsSub rest p

/-- ASCII whitespace test (model of `char::is_whitespace` on the ASCII
range). -/
def isWhitespaceChar (c : Char) : Bool :=
  c = ' ' || c = '\t' || c = '\n' || c = '\r' || c.toNat = 11 || c.toNat = 12

/-- Model of Rust `str::trim`. -/
def trimStr (s : Str) : Str :=
  ((s.dropWhile isWhitespaceChar).reverse.dropWhile isWhitespaceChar).reverse

/-- Model of Rust `str::split(sep)`: a string with `n` separators always
yields `n + 1` pieces (the empty string yields one empty piece). -/
def splitOnChar (sep : Char) : Str → List Str
  | [] => [[]]
  | c :: cs =>
    let r := splitOnChar sep cs
    if c = sep then [] :: r
    else
      match r with
      | [] => [[c]]
      | h :: t => (c :: h) :: t

/-- Model of Rust `str::split_once(sep)`: split at the first occurrence of
the separator, or `none` when the separator does not occur. -/
def splitOnceChar (sep : Char) : Str → Option (Str × Str)
  | [] => none
  | c :: cs =>
    if c = sep then some ([], cs)
    else (splitOnceChar sep cs).map (fun p => (c :: p.1, p.2))

/-- Model of Rust `Vec<String>::join` for a one-character separator. -/
def joinChar (sep : Char) : List Str → Str
  | [] => []
  | [x] => x
  | x :: y :: t => x ++ sep :: joinChar sep (y :: t)

/-- Numeric value of an ASCII digit character, `none` for any other
character. -/
def digitVal (c : Char) : Option Nat :=
  if 48 ≤ c.toNat ∧ c.toNat ≤ 57 then some (c.toNat - 48) else none

/-- Left-to-right accumulation of a digit string; fails on the first
non-digit character. -/
def digitsValAux : Str → Nat → Option Nat
  | [], acc => some acc
  | c :: cs, acc =>
    match digitVal c with
    | some d => digitsValAux cs (acc * 10 + d)
    | none => none

/-- Model of Rust `str::parse::<uN>()` for an unsigned integer type whose
values are `< bound`: an optional leading `+` or `-` sign, then a non-empty
digit string; a `-` sign is only accepted when the value is zero, and a
value `≥ bound` is rejected (Rust rejects overflow during accumulation; the
result is the same). -/
def parseUIntCore (bound : Nat) (neg : Bool) (t : Str) : Option Nat :=
  match t with
  | [] => none
  | _ :: _ =>
    match digitsValAux t 0 with
    | some v =>
      if neg then (if v = 0 then some 0 else none)
      else if v < bound then some v else none
    | none => none

/-- Model of Rust `str::parse::<uN>()` for an unsigned integer type, split
into sign handling here and digit handling in `parseUIntCore`. -/
def parseUIntStr (bound : Nat) (s : Str) : Option Nat :=
  match s with
  | [] => none
  | c :: rest =>
    if c = '+' then parseUIntCore bound false rest
    else if c = '-' then parseUIntCore bound true rest
    else parseUIntCore bound false (c :: rest)

/-- Exclusive upper bound of `u64` / 64-bit `usize` values. -/
def U64BOUND : Nat := 18446744073709551616

/-- Exclusive upper bound of `u32` values. -/
def U32BOUND : Nat := 4294967296

/-- Model of Rust `str::parse::<u64>()` (also `usize` on a 64-bit target). -/
def parseU64 (s : Str) : Option Nat := parseUIntStr U64BOUND s

/-- Model of Rust `str::parse::<u32>()`. -/
def parseU32 (s : Str) : Option Nat := parseUIntStr U32BOUND s

/-- ASCII character of a decimal digit (`d < 10`; callers only pass `n % 10`). -/
def digitChar (d : Nat) : Char :=
  match d with
  | 0 => '0' | 1 => '1' | 2 => '2' | 3 => '3' | 4 => '4'
  | 5 => '5' | 6 => '6' | 7 => '7' | 8 => '8' | _ => '9'

/-- Accumulator loop for decimal rendering of a natural number; the fuel
argument only bounds the recursion (any fuel above the value suffices) and
keeps the definition structurally recursive. -/
def natDigitsGo : Nat → Nat → Str → Str
  | 0, _, acc => acc
  | fuel + 1, n, acc =>
    if n = 0 then acc
    else natDigitsGo fuel (n / 10) (digitChar (n % 10) :: acc)

/-- Model of Rust `u64::to_string` / `usize::to_string` (decimal, no sign,
no leading zeros except for `0` itself). -/
def natDigits (n : Nat) : Str :=
  if n = 0 then ['0'] else natDigitsGo (n + 1) n []

/-- Transfer kind of a download, from `types.rs` (`DownloadType`). -/
inductive DownloadType where
  | Http
  | Ftp
  | Torrent
  | Magnet
deriving DecidableEq, Repr

/-- Display encoding of a transfer kind, from `impl Display for DownloadType`
in `types.rs`. -/
def DownloadType.toStr : DownloadType → Str
  | .Http => str "http"
  | .Ftp => str "ftp"
  | .Torrent => str "torrent"
  | .Magnet => str "magnet"

/-- Parsing of a transfer kind, from `impl From<&str> for DownloadType` in
`types.rs`: the input is lower-cased and any unrecognized string falls back
to `Http`. -/
def DownloadType.fromStr (s : Str) : DownloadType :=
  let t := lowerStr s
  if t = str "http" then .Http
  else if t = str "ftp" then .Ftp
  else if t = str "torrent" then .Torrent
  else if t = str "magnet" then .Magnet
  else .Http

/-- Lifecycle state of a download, from `types.rs` (`DownloadState`). -/
inductive DownloadState where
  | Active
  | Waiting
  | Paused
  | Complete
  | Error
  | Removed
deriving DecidableEq, Repr

/-- Display encoding of a lifecycle state, from `impl Display for
DownloadState` in `types.rs`. -/
def DownloadState.toStr : DownloadState → Str
  | .Active => str "active"
  | .Waiting => str "waiting"
  | .Paused => str "paused"
  | .Complete => str "complete"
  | .Error => str "error"
  | .Removed => str "removed"

/-- Parsing of a lifecycle state, from `impl From<&str> for DownloadState`
in `types.rs`: the input is lower-cased and any unrecognized string falls
back to `Waiting`. -/
def DownloadState.fromStr (s : Str) : DownloadState :=
  let t := lowerStr s
  if t = str "active" then .Active
  else if t = str "waiting" then .Waiting
  else if t = str "paused" then .Paused
  else if t = str "complete" then .Complete
  else if t = str "error" then .Error
  else if t = str "removed" then .Removed
  else .Waiting

/-- Helper: lower-casing a canonical state encoding is the identity. -/
theorem lowerStr_state_toStr (s : DownloadState) :
    lowerStr s.toStr = s.toStr := by
  cases s <;> decide

/-- Helper: the state encoding round-trips. -/
theorem state_fromStr_toStr (s : DownloadState) :
    DownloadState.fromStr s.toStr = s := by
  cases s <;> decide

/-- Helper: the kind encoding round-trips. -/
theorem type_fromStr_toStr (t : DownloadType) :
    DownloadType.fromStr t.toStr = t := by
  cases t <;> decide

/-- C10: the string encodings of lifecycle state and transfer kind
round-trip (parsing the display string of any `DownloadState` or
`DownloadType` yields the same value back), and parsing any string whose
lower-casing is not one of the recognized encodings falls back to `Waiting`
for states and `Http` for kinds rather than failing. -/
theorem state_and_type_encoding_roundtrip :
    (∀ s : DownloadState, DownloadState.fromStr s.toStr = s) ∧
    (∀ t : DownloadType, DownloadType.fromStr t.toStr = t) ∧
    (∀ s : Str,
      lowerStr s ∉ [str "active", str "waiting", str "paused",
        str "complete", str "error", str "removed"] →
      DownloadState.fromStr s = .Waiting) ∧
    (∀ s : Str,
      lowerStr s ∉ [str "http", str "ftp", str "torrent", str "magnet"] →
      DownloadType.fromStr s = .Http) := by
  refine ⟨state_fromStr_toStr, type_fromStr_toStr, ?_, ?_⟩
  · intro s h
    simp only [List.mem_cons, List.not_mem_nil, or_false, not_or] at h
    obtain ⟨h1, h2, h3, h4, h5, h6⟩ := h
    simp [DownloadState.fromStr, h1, h2, h3, h4, h5, h6]
  · intro s h
    simp only [List.mem_cons, List.not_mem_nil, or_false, not_or] at h
    obtain ⟨h1, h2, h3, h4⟩ := h
    simp [DownloadType.fromStr, h1, h2, h3, h4]

/-- C10 witness: a concrete unrecognized string falls back to `Waiting` and
`Http`, and a concrete state round-trips. -/
theorem state_and_type_encoding_roundtrip_witness :
    DownloadState.fromStr (str "garbage") = .Waiting ∧
    DownloadType.fromStr (str "garbage") = .Http ∧
    DownloadState.fromStr (DownloadState.Paused).toStr = .Paused := by
  refine ⟨?_, ?_, ?_⟩
  · exact state_and_type_encoding_roundtrip.2.2.1 (str "garbage") (by decide)
  · exact state_and_type_encoding_roundtrip.2.2.2 (str "garbage") (by decide)
  · exact state_and_type_encoding_roundtrip.1 .Paused

/-- Helper: `upperChar` maps a character to `K` exactly for `k`/`K`. -/
theorem upperChar_eq_K (c : Char) : upperChar c = 'K' ↔ (c = 'k' ∨ c = 'K') := by
  unfold upperChar
  split <;> simp_all

/-- Helper: `upperChar` maps a character to `M` exactly for `m`/`M`. -/
theorem upperChar_eq_M (c : Char) : upperChar c = 'M' ↔ (c = 'm' ∨ c = 'M') := by
  unfold upperChar
  split <;> simp_all

/-- Helper: `upperChar` maps a character to `G` exactly for `g`/`G`. -/
theorem upperChar_eq_G (c : Char) : upperChar c = 'G' ↔ (c = 'g' ∨ c = 'G') := by
  unfold upperChar
  split <;> simp_all

/-- Helper: upper-casing does not change whether a character is a digit, nor
its digit value. -/
theorem digitVal_upperChar (c : Char) : digitVal (upperChar c) = digitVal c := by
  unfold upperChar
  split <;> rfl

/-- Helper: upper-casing fixes the plus sign. -/
theorem upperChar_eq_plus (c : Char) : upperChar c = '+' ↔ c = '+' := by
  unfold upperChar
  split <;> simp_all

/-- Helper: upper-casing fixes the minus sign. -/
theorem upperChar_eq_minus (c : Char) : upperChar c = '-' ↔ c = '-' := by
  unfold upperChar
  split <;> simp_all

/-- Helper: `tail` commutes with `map`. -/
theorem tail_map_comm (f : Char → Char) (l : Str) :
    (l.map f).tail = l.tail.map f := by
  cases l <;> rfl

/-- Helper: `dropLast` commutes with `map`. -/
theorem dropLast_map_comm (f : Char → Char) (l : Str) :
    (l.map f).dropLast = l.dropLast.map f := by
  induction l with
  | nil => rfl
  | cons c t ih =>
    cases t with
    | nil => rfl
    | cons d t2 =>
      simp only [List.map_cons, List.dropLast_cons₂] at ih ⊢
      rw [ih]

/-- Helper: digit accumulation ignores ASCII upper-casing. -/
theorem digitsValAux_upperStr (l : Str) (a : Nat) :
    digitsValAux (upperStr l) a = digitsValAux l a := by
  induction l generalizing a with
  | nil => rfl
  | cons c t ih =>
    simp only [upperStr, List.map_cons] at ih ⊢
    simp only [digitsValAux, digitVal_upperChar]
    cases digitVal c <;> simp [ih]

/-- Helper: `parseUIntCore` ignores ASCII upper-casing of its input. -/
theorem parseUIntCore_upperStr (bound : Nat) (neg : Bool) (l : Str) :
    parseUIntCore bound neg (upperStr l) = parseUIntCore bound neg l := by
  cases l with
  | nil => rfl
  | cons c t =>
    simp only [upperStr, List.map_cons, parseUIntCore]
    rw [show (upperChar c :: List.map upperChar t) = upperStr (c :: t) from rfl,
      digitsValAux_upperStr]

/-- Helper: `parseU64` ignores ASCII upper-casing of its input. -/
theorem parseU64_upperStr (l : Str) : parseU64 (upperStr l) = parseU64 l := by
  unfold parseU64 parseUIntStr
  cases l with
  | nil => rfl
  | cons c t =>
    simp only [upperStr, List.map_cons]
    by_cases hp : c = '+'
    · subst hp
      have hu : upperChar '+' = '+' := by decide
      rw [hu]
      simpa using parseUIntCore_upperStr U64BOUND false t
    · by_cases hm : c = '-'
      · subst hm
        have hu : upperChar '-' = '-' := by decide
        rw [hu]
        simpa using parseUIntCore_upperStr U64BOUND true t
      · have h1 : ¬ upperChar c = '+' := fun h => hp ((upperChar_eq_plus c).mp h)
        have h2 : ¬ upperChar c = '-' := fun h => hm ((upperChar_eq_minus c).mp h)
        simp only [h1, h2, hp, hm, if_false]
        rw [show (upperChar c :: List.map upperChar t) = upperStr (c :: t) from rfl,
          parseUIntCore_upperStr]

/-- Helper: ending with an upper-cased character after upper-casing the
string is the same as ending with either case before. -/
theorem strEndsWith_upperStr_single (t : Str) (cl cu : Char)
    (h : ∀ c, upperChar c = cu ↔ (c = cl ∨ c = cu)) :
    strEndsWith (upperStr t) [cu] = (strEndsWith t [cu] || strEndsWith t [cl]) := by
  unfold strEndsWith upperStr
  rw [← List.map_reverse]
  cases t.reverse with
  | nil => rfl
  | cons c rest =>
    by_cases hc : upperChar c = cu
    · rcases (h c).mp hc with h1 | h1 <;> subst h1 <;> simp [strStartsWith, hc]
    · have h1 : ¬ c = cl := fun e => hc ((h c).mpr (Or.inl e))
      have h2 : ¬ c = cu := fun e => hc ((h c).mpr (Or.inr e))
      simp [strStartsWith, hc, h1, h2]

/-- Model of `parse_speed` from `engine_adapter.rs`: trim, upper-case, strip
a trailing `K`/`M`/`G` multiplier, parse the rest as `u64` and scale by 1024
per multiplier step (`u64` multiplication wraps modulo `2 ^ 64` in release
builds, modelled by the final reduction). -/
def parse_speed (s : Str) : Option Nat :=
  if strEndsWith (upperStr (trimStr s)) ['K'] then
    (parseU64 (upperStr (trimStr s)).dropLast).map (fun n => n * 1024 % U64BOUND)
  else if strEndsWith (upperStr (trimStr s)) ['M'] then
    (parseU64 (upperStr (trimStr s)).dropLast).map
      (fun n => n * 1024 * 1024 % U64BOUND)
  else if strEndsWith (upperStr (trimStr s)) ['G'] then
    (parseU64 (upperStr (trimStr s)).dropLast).map
      (fun n => n * 1024 * 1024 * 1024 % U64BOUND)
  else
    parseU64 (upperStr (trimStr s))

/-- Specification-side restatement of the speed parser, following the
spec's words: a trimmed string ending in no suffix or a case-insensitive
`K`/`M`/`G` suffix parses as bytes per second with multiplier 1024 per
step, and yields nothing when the numeric part fails to parse.  Compared
against the source-derived `parse_speed` in `parse_speed_contract`. -/
def parseSpeedSpec (s : Str) : Option Nat :=
  if strEndsWith (trimStr s) ['K'] || strEndsWith (trimStr s) ['k'] then
    (parseU64 (trimStr s).dropLast).map (fun n => n * 1024 % U64BOUND)
  else if strEndsWith (trimStr s) ['M'] || strEndsWith (trimStr s) ['m'] then
    (parseU64 (trimStr s).dropLast).map (fun n => n * 1024 * 1024 % U64BOUND)
  else if strEndsWith (trimStr s) ['G'] || strEndsWith (trimStr s) ['g'] then
    (parseU64 (trimStr s).dropLast).map
      (fun n => n * 1024 * 1024 * 1024 % U64BOUND)
  else
    parseU64 (trimStr s)

/-- Helper: the source speed parser agrees with the spec-side restatement. -/
theorem parse_speed_eq_spec (s : Str) : parse_speed s = parseSpeedSpec s := by
  unfold parse_speed parseSpeedSpec
  rw [strEndsWith_upperStr_single (trimStr s) 'k' 'K' upperChar_eq_K,
    strEndsWith_upperStr_single (trimStr s) 'm' 'M' upperChar_eq_M,
    strEndsWith_upperStr_single (trimStr s) 'g' 'G' upperChar_eq_G]
  rw [show (upperStr (trimStr s)).dropLast = upperStr (trimStr s).dropLast from
    dropLast_map_comm upperChar (trimStr s)]
  rw [parseU64_upperStr, parseU64_upperStr]

/-- C9: `parse_speed` parses a string ending in no suffix or `K`/`M`/`G`
(case-insensitive) into bytes per second with multiplier 1024 per step and
returns nothing when the numeric part fails to parse (the spec-side
restatement `parseSpeedSpec`), and satisfies the five concrete examples
given in the specification. -/
theorem parse_speed_contract :
    parse_speed (str "1024") = some 1024 ∧
    parse_speed (str "1K") = some 1024 ∧
    parse_speed (str "1M") = some 1048576 ∧
    parse_speed (str "2G") = some 2147483648 ∧
    parse_speed (str "abc") = none ∧
    parse_speed (str "1k") = some 1024 ∧
    parse_speed (str " 500m ") = some 524288000 ∧
    (∀ s : Str, parse_speed s = parseSpeedSpec s) :=
  ⟨by decide, by decide, by decide, by decide, by decide, by decide, by decide,
    parse_speed_eq_spec⟩

/-- Model of `looks_like_html_download` from `engine_adapter.rs`: a resolved
response is flagged as an HTML page when a content type is present and its
lower-casing starts with `text/html`, the content disposition (if any) does
not contain `attachment`, and the lower-cased URL ends in neither `.html`
nor `.htm`. -/
def looks_like_html_download (url : Str) (content_type content_disp : Option Str) :
    Bool :=
  match content_type with
  | none => false
  | some ct =>
    if !(strStartsWith (lowerStr ct) (str "text/html")) then false
    else if (match content_disp with
        | some cd => strContainsSub (lowerStr cd) (str "attachment")
        | none => false) then false
    else !(strEndsWith (lowerStr url) (str ".html")
        || strEndsWith (lowerStr url) (str ".htm"))

/-- C7: the HTML-rejection heuristic flags a resolution exactly when the
content type is `text/html` (its lower-casing starts with `text/html`), the
response carries no attachment disposition, and the URL ends in neither
`.htm` nor `.html`; in particular `text/html` with an attachment
disposition is accepted, a URL ending in `.html` is accepted regardless of
disposition, and an absent or non-HTML content type is always accepted. -/
theorem looks_like_html_download_contract (url : Str) (ct cd : Option Str) :
    (looks_like_html_download url ct cd = true ↔
      (∃ c, ct = some c ∧ strStartsWith (lowerStr c) (str "text/html") = true) ∧
      (∀ d, cd = some d → strContainsSub (lowerStr d) (str "attachment") = false) ∧
      strEndsWith (lowerStr url) (str ".html") = false ∧
      strEndsWith (lowerStr url) (str ".htm") = false) ∧
    (∀ d, cd = some d → strContainsSub (lowerStr d) (str "attachment") = true →
      looks_like_html_download url ct cd = false) ∧
    (strEndsWith (lowerStr url) (str ".html") = true →
      looks_like_html_download url ct cd = false) ∧
    (ct = none → looks_like_html_download url ct cd = false) ∧
    (∀ c, ct = some c → strStartsWith (lowerStr c) (str "text/html") = false →
      looks_like_html_download url ct cd = false) := by
  unfold looks_like_html_download
  cases ct with
  | none => simp
  | some c =>
    cases cd with
    | none =>
      cases hs : strStartsWith (lowerStr c) (str "text/html") <;>
        cases h1 : strEndsWith (lowerStr url) (str ".html") <;>
          cases h2 : strEndsWith (lowerStr url) (str ".htm") <;>
            simp [hs, h1, h2]
    | some d =>
      cases hs : strStartsWith (lowerStr c) (str "text/html") <;>
        cases ha : strContainsSub (lowerStr d) (str "attachment") <;>
          cases h1 : strEndsWith (lowerStr url) (str ".html") <;>
            cases h2 : strEndsWith (lowerStr url) (str ".htm") <;>
              simp [hs, ha, h1, h2]

/-- C7 witness: concrete probes for each clause of the heuristic contract. -/
theorem looks_like_html_download_contract_witness :
    looks_like_html_download (str "http://x/f.zip")
      (some (str "text/html")) (some (str "attachment; filename=f.zip")) = false ∧
    looks_like_html_download (str "http://x/page.html")
      (some (str "text/html")) none = false ∧
    looks_like_html_download (str "http://x/f.zip") none none = false ∧
    looks_like_html_download (str "http://x/f.zip")
      (some (str "application/zip")) none = false ∧
    looks_like_html_download (str "http://x/f.zip")
      (some (str "TEXT/HTML; charset=utf-8")) none = true := by
  refine ⟨?_, ?_, ?_, ?_, ?_⟩
  · exact (looks_like_html_download_contract (str "http://x/f.zip")
      (some (str "text/html")) (some (str "attachment; filename=f.zip"))).2.1
      (str "attachment; filename=f.zip") rfl (by decide)
  · exact (looks_like_html_download_contract (str "http://x/page.html")
      (some (str "text/html")) none).2.2.1 (by decide)
  · exact (looks_like_html_download_contract (str "http://x/f.zip")
      none none).2.2.2.1 rfl
  · exact (looks_like_html_download_contract (str "http://x/f.zip")
      (some (str "application/zip")) none).2.2.2.2
      (str "application/zip") rfl (by decide)
  · exact ((looks_like_html_download_contract (str "http://x/f.zip")
      (some (str "TEXT/HTML; charset=utf-8")) none).1).mpr
      ⟨⟨str "TEXT/HTML; charset=utf-8", rfl, by decide⟩,
        by simp, by decide, by decide⟩

/-- Model of a Rust `f64` value as obtained from parsing: not-a-number, a
signed infinity, or a finite number carried as the exact rational value the
parsed literal denotes (rounding to the nearest double is not modelled; no
claim depends on the rounded magnitude). -/
inductive F64 where
  | nan : F64
  | inf : Bool → F64
  | num : Rat → F64
deriving DecidableEq, Repr

/-- Split at the first character satisfying a predicate. -/
def splitOnceBy (p : Char → Bool) : Str → Option (Str × Str)
  | [] => none
  | c :: cs =>
    if p c then some ([], cs)
    else (splitOnceBy p cs).map (fun q => (c :: q.1, q.2))

/-- Mantissa of the documented `f64::from_str` grammar: digits with an
optional dot, at least one digit overall (`1`, `1.`, `1.5` and `.5` are
valid; `.` and the empty string are not). -/
def parseMantissa (t : Str) : Option Rat :=
  match splitOnceChar '.' t with
  | none =>
    if t.isEmpty then none else (digitsValAux t 0).map (fun v => (v : Rat))
  | some (a, b) =>
    if a.isEmpty && b.isEmpty then none
    else
      match digitsValAux a 0, digitsValAux b 0 with
      | some va, some vb =>
        some ((va : Rat) + (vb : Rat) / (10 : Rat) ^ b.length)
      | _, _ => none

/-- Exponent part of the documented `f64::from_str` grammar: an optional
sign followed by a non-empty digit string. -/
def parseExpPart (e : Str) : Option Int :=
  match e with
  | [] => none
  | '+' :: r =>
    if r.isEmpty then none else (digitsValAux r 0).map (fun v => (v : Int))
  | '-' :: r =>
    if r.isEmpty then none else (digitsValAux r 0).map (fun v => -(v : Int))
  | _ => (digitsValAux e 0).map (fun v => (v : Int))

/-- Number production of the `f64::from_str` grammar: mantissa with an
optional `e`/`E` exponent. -/
def parseF64Num (neg : Bool) (t : Str) : Option F64 :=
  match splitOnceBy (fun c => c = 'e' || c = 'E') t with
  | none =>
    (parseMantissa t).map (fun m => F64.num ((if neg then -1 else 1) * m))
  | some (mant, ex) =>
    match parseMantissa mant, parseExpPart ex with
    | some m, some e =>
      some (F64.num ((if neg then -1 else 1) * m * (10 : Rat) ^ e))
    | _, _ => none

/-- Body of `f64::from_str` after sign stripping: `inf`, `infinity` and
`nan` case-insensitively, else a number. -/
def parseF64Signed (neg : Bool) (t : Str) : Option F64 :=
  if lowerStr t = str "inf" ∨ lowerStr t = str "infinity" then some (F64.inf neg)
  else if lowerStr t = str "nan" then some F64.nan
  else parseF64Num neg t

/-- Model of Rust `str::parse::<f64>()` by its documented grammar. -/
def parseF64 (s : Str) : Option F64 :=
  match s with
  | '+' :: r => parseF64Signed false r
  | '-' :: r => parseF64Signed true r
  | r => parseF64Signed false r

/-- Frontend option bag, from `types.rs` (`DownloadOptions`) extended with
the fields the adapter's `convert_options` reads (`cookies`,
`checksum_type`, `checksum_value`, `mirror_urls`, `priority`,
`sequential`); the richer struct definition itself is not under `src/` and
its extra fields are modelled from the spec's option-bag enumeration
(directory, filename, per-server connection cap, user agent, referer, raw
header lines, cookie string, checksum type and value, mirrors, priority
token, speed limits, selected-file list, sequential flag). -/
structure FrontendOptions where
  dir : Option Str := none
  out : Option Str := none
  max_connection_per_server : Option Str := none
  user_agent : Option Str := none
  referer : Option Str := none
  header : Option (List Str) := none
  select_file : Option Str := none
  seed_ratio : Option Str := none
  max_download_limit : Option Str := none
  max_upload_limit : Option Str := none
  cookies : Option Str := none
  checksum_type : Option Str := none
  checksum_value : Option Str := none
  mirror_urls : Option (List Str) := none
  priority : Option Str := none
  sequential : Bool := false
deriving DecidableEq, Repr

/-- Expected checksum passed to the engine (`gosh_dl::http::ExpectedChecksum`,
only its two constructors used by `convert_options` are relevant). -/
inductive Checksum where
  | md5 : Str → Checksum
  | sha256 : Str → Checksum
deriving DecidableEq, Repr

/-- Engine-native download options (`gosh_dl::DownloadOptions`), generic in
the engine's priority type whose parser is external to this repository. -/
structure GoshDlOptions (π : Type) where
  save_dir : Option Str
  filename : Option Str
  user_agent : Option Str
  referer : Option Str
  headers : List (Str × Str)
  cookies : Option (List Str)
  checksum : Option Checksum
  mirrors : List Str
  priority : π
  max_connections : Option Nat
  max_download_speed : Option Nat
  max_upload_speed : Option Nat
  seed_ratio : Option F64
  selected_files : Option (List Nat)
  sequential : Bool

/-- Header-line loop of `convert_options`: each line with a colon is split
at the first colon into trimmed key and value; lines without a colon are
skipped. -/
def convertHeaders : List Str → List (Str × Str)
  | [] => []
  | h :: t =>
    match splitOnceChar ':' h with
    | some (k, v) => (trimStr k, trimStr v) :: convertHeaders t
    | none => convertHeaders t

/-- Model of `convert_options` from `engine_adapter.rs`, generic in the
engine's priority parser (`DownloadPriority::from_str`) and default. -/
def convert_options {π : Type} (parsePriority : Str → Option π)
    (defaultPriority : π) (opts : FrontendOptions) : GoshDlOptions π :=
  { save_dir := opts.dir
    filename := opts.out
    user_agent := opts.user_agent
    referer := opts.referer
    headers := convertHeaders (opts.header.getD [])
    cookies := opts.cookies.map (fun c =>
      ((splitOnChar ';' c).map trimStr).filter (fun x => !x.isEmpty))
    checksum :=
      (opts.checksum_type.bind (fun t => opts.checksum_value.map (fun v => (t, v)))).bind
        (fun p =>
          if lowerStr p.1 = str "md5" then some (Checksum.md5 p.2)
          else if lowerStr p.1 = str "sha256" then some (Checksum.sha256 p.2)
          else none)
    mirrors := opts.mirror_urls.getD []
    priority := (opts.priority.bind parsePriority).getD defaultPriority
    max_connections := opts.max_connection_per_server.bind parseU64
    max_download_speed := opts.max_download_limit.bind parse_speed
    max_upload_speed := opts.max_upload_limit.bind parse_speed
    seed_ratio := opts.seed_ratio.bind parseF64
    selected_files := opts.select_file.map (fun s =>
      (splitOnChar ',' s).filterMap parseU64)
    sequential := opts.sequential }

/-- Helper: a successful `split_once` decomposes the string at an occurrence
of the separator with no earlier occurrence (so it is the first one). -/
theorem splitOnceChar_some (sep : Char) (s : Str) :
    ∀ k v, splitOnceChar sep s = some (k, v) → s = k ++ sep :: v ∧ sep ∉ k := by
  induction s with
  | nil => intro k v h; simp [splitOnceChar] at h
  | cons c cs ih =>
    intro k v h
    by_cases hc : c = sep
    · subst hc
      simp [splitOnceChar] at h
      obtain ⟨hk, hv⟩ := h
      subst hk; subst hv
      simp
    · simp only [splitOnceChar, hc, if_false] at h
      cases hrec : splitOnceChar sep cs with
      | none => rw [hrec] at h; simp at h
      | some p =>
        obtain ⟨k2, v2⟩ := p
        rw [hrec] at h
        simp only [Option.map_some'] at h
        have hk : k = c :: k2 := (congrArg Prod.fst (Option.some.inj h)).symm
        have hv : v = v2 := (congrArg Prod.snd (Option.some.inj h)).symm
        obtain ⟨hcs, hnot⟩ := ih k2 v2 hrec
        constructor
        · rw [hk, hv, hcs]; rfl
        · rw [hk]
          intro hm
          rcases List.mem_cons.mp hm with h1 | h1
          · exact hc h1.symm
          · exact hnot h1

/-- Helper: `split_once` fails exactly when the separator does not occur. -/
theorem splitOnceChar_none (sep : Char) (s : Str) :
    splitOnceChar sep s = none ↔ sep ∉ s := by
  induction s with
  | nil => simp [splitOnceChar]
  | cons c cs ih =>
    by_cases hc : c = sep
    · subst hc; simp [splitOnceChar]
    · simp only [splitOnceChar, hc, if_false]
      cases hr : splitOnceChar sep cs with
      | none =>
        have hni : sep ∉ cs := ih.mp hr
        have hnc : ¬ sep = c := fun h => hc h.symm
        simp [List.mem_cons, hni, hnc]
      | some p =>
        have hmem : sep ∈ cs := by
          by_contra hn
          rw [ih.mpr hn] at hr
          cases hr
        simp [List.mem_cons, hmem]

/-- Helper: splitting never yields an empty list of pieces. -/
theorem splitOnChar_ne_nil (sep : Char) (s : Str) : splitOnChar sep s ≠ [] := by
  cases s with
  | nil => simp [splitOnChar]
  | cons c cs =>
    simp only [splitOnChar]
    by_cases hc : c = sep
    · simp [hc]
    · simp only [hc, if_false]
      cases splitOnChar sep cs <;> simp

/-- Helper: joining the pieces of a split with the separator restores the
original string. -/
theorem joinChar_splitOnChar (sep : Char) (s : Str) :
    joinChar sep (splitOnChar sep s) = s := by
  induction s with
  | nil => rfl
  | cons c cs ih =>
    simp only [splitOnChar]
    by_cases hc : c = sep
    · subst hc
      simp only [if_pos rfl]
      cases hr : splitOnChar c cs with
      | nil => exact absurd hr (splitOnChar_ne_nil c cs)
      | cons h t =>
        rw [hr] at ih
        simp [joinChar, ih]
    · simp only [hc, if_false]
      cases hr : splitOnChar sep cs with
      | nil => exact absurd hr (splitOnChar_ne_nil sep cs)
      | cons h t =>
        rw [hr] at ih
        cases t with
        | nil => simp [joinChar] at ih ⊢; rw [ih]
        | cons z t2 => simp [joinChar] at ih ⊢; rw [ih]

/-- Helper: no piece of a split contains the separator. -/
theorem splitOnChar_not_mem (sep : Char) (s : Str) :
    ∀ p ∈ splitOnChar sep s, sep ∉ p := by
  induction s with
  | nil => intro p hp; simp [splitOnChar] at hp; simp [hp]
  | cons c cs ih =>
    intro p hp
    simp only [splitOnChar] at hp
    by_cases hc : c = sep
    · simp only [hc, if_pos rfl] at hp
      rcases List.mem_cons.mp hp with h1 | h1
      · simp [h1]
      · exact ih p h1
    · simp only [hc, if_false] at hp
      cases hr : splitOnChar sep cs with
      | nil => exact absurd hr (splitOnChar_ne_nil sep cs)
      | cons h t =>
        rw [hr] at hp
        rcases List.mem_cons.mp hp with h1 | h1
        · subst h1
          intro hm
          rcases List.mem_cons.mp hm with h2 | h2
          · exact hc h2.symm
          · exact ih h (by rw [hr]; exact List.mem_cons_self h t) h2
        · exact ih p (by rw [hr]; exact List.mem_cons_of_mem h h1)

/-- Helper: the header loop is the claimed filter-map over header lines. -/
theorem convertHeaders_eq (l : List Str) :
    convertHeaders l = l.filterMap (fun h =>
      (splitOnceChar ':' h).map (fun p => (trimStr p.1, trimStr p.2))) := by
  induction l with
  | nil => rfl
  | cons h t ih =>
    cases hs : splitOnceChar ':' h with
    | none => simp [convertHeaders, hs, ih]
    | some p => cases p; simp [convertHeaders, hs, ih]

/-- C8: `convert_options` is total by construction (it returns a
`GoshDlOptions` value for every option bag), its header field is the
filter-map that splits each header line at its first colon into a trimmed
key and value and drops lines without a colon, its cookie field splits the
cookie string on `;` with each segment trimmed and empty segments removed,
and unparseable priority, connection-count, speed-limit and seed-ratio
sub-fields fall back to the engine defaults. -/
theorem convert_options_contract {π : Type} (pp : Str → Option π) (dp : π)
    (opts : FrontendOptions) :
    (convert_options pp dp opts).headers
      = (opts.header.getD []).filterMap (fun h =>
          (splitOnceChar ':' h).map (fun p => (trimStr p.1, trimStr p.2))) ∧
    (∀ h k v, splitOnceChar ':' h = some (k, v) → h = k ++ ':' :: v ∧ ':' ∉ k) ∧
    (∀ h, splitOnceChar ':' h = none ↔ ':' ∉ h) ∧
    (convert_options pp dp opts).cookies
      = opts.cookies.map (fun c =>
          ((splitOnChar ';' c).map trimStr).filter (fun x => !x.isEmpty)) ∧
    (∀ c, joinChar ';' (splitOnChar ';' c) = c) ∧
    (∀ s, opts.priority = some s → pp s = none →
      (convert_options pp dp opts).priority = dp) ∧
    (∀ s, opts.max_connection_per_server = some s → parseU64 s = none →
      (convert_options pp dp opts).max_connections = none) ∧
    (∀ s, opts.max_download_limit = some s → parse_speed s = none →
      (convert_options pp dp opts).max_download_speed = none) ∧
    (∀ s, opts.seed_ratio = some s → parseF64 s = none →
      (convert_options pp dp opts).seed_ratio = none) := by
  refine ⟨convertHeaders_eq _, fun h k v => splitOnceChar_some ':' h k v,
    fun h => splitOnceChar_none ':' h, rfl, fun c => joinChar_splitOnChar ';' c,
    ?_, ?_, ?_, ?_⟩
  · intro s hs hp; simp [convert_options, hs, hp]
  · intro s hs hp; simp [convert_options, hs, hp]
  · intro s hs hp; simp [convert_options, hs, hp]
  · intro s hs hp; simp [convert_options, hs, hp]

/-- C8 witness: the contract applied to a concrete option bag with a header
line lacking a colon, a cookie string with empty segments, and unparseable
priority, connection-count, speed and seed-ratio fields. -/
theorem convert_options_contract_witness :
    (convert_options (fun _ : Str => (none : Option Nat)) 0
        { header := some [str "X-A: 1", str "bad line"],
          cookies := some (str "a=1; ; b=2;"),
          priority := some (str "weird"),
          max_connection_per_server := some (str "many"),
          max_download_limit := some (str "fast"),
          seed_ratio := some (str "ratio") }).headers
      = [(str "X-A", str "1")] ∧
    (convert_options (fun _ : Str => (none : Option Nat)) 0
        { cookies := some (str "a=1; ; b=2;") }).cookies
      = some [str "a=1", str "b=2"] ∧
    (convert_options (fun _ : Str => (none : Option Nat)) 0
        { priority := some (str "weird") }).priority = 0 ∧
    (convert_options (fun _ : Str => (none : Option Nat)) 0
        { max_connection_per_server := some (str "many") }).max_connections
      = none ∧
    (convert_options (fun _ : Str => (none : Option Nat)) 0
        { max_download_limit := some (str "fast") }).max_download_speed
      = none ∧
    (convert_options (fun _ : Str => (none : Option Nat)) 0
        { seed_ratio := some (str "ratio") }).seed_ratio = none := by
  refine ⟨?_, ?_, ?_, ?_, ?_, ?_⟩
  · rw [(convert_options_contract (fun _ : Str => (none : Option Nat)) 0 _).1]
    decide
  · rw [(convert_options_contract (fun _ : Str => (none : Option Nat)) 0 _).2.2.2.1]
    decide
  · exact (convert_options_contract (fun _ : Str => (none : Option Nat)) 0
      _).2.2.2.2.2.1 (str "weird") rfl rfl
  · exact (convert_options_contract (fun _ : Str => (none : Option Nat)) 0
      _).2.2.2.2.2.2.1 (str "many") rfl (by decide)
  · exact (convert_options_contract (fun _ : Str => (none : Option Nat)) 0
      _).2.2.2.2.2.2.2.1 (str "fast") rfl (by decide)
  · exact (convert_options_contract (fun _ : Str => (none : Option Nat)) 0
      _).2.2.2.2.2.2.2.2 (str "ratio") rfl (by decide)

/-- Download model, from `types.rs` (`Download`): the UI/persistence-facing
record of one transfer. -/
structure Download where
  id : Int
  gid : Str
  name : Str
  url : Option Str
  magnet_uri : Option Str
  info_hash : Option Str
  download_type : DownloadType
  status : DownloadState
  total_size : Nat
  completed_size : Nat
  download_speed : Nat
  upload_speed : Nat
  save_path : Str
  created_at : Str
  completed_at : Option Str
  error_message : Option Str
  connections : Nat
  seeders : Nat
  selected_files : Option (List Nat)
deriving DecidableEq, Repr

/-- Default download record, from `impl Default for Download` in
`types.rs`. -/
def Download.dfl : Download :=
  { id := 0, gid := [], name := [], url := none, magnet_uri := none,
    info_hash := none, download_type := .Http, status := .Waiting,
    total_size := 0, completed_size := 0, download_speed := 0,
    upload_speed := 0, save_path := [], created_at := [],
    completed_at := none, error_message := none, connections := 0,
    seeders := 0, selected_files := none }

/-- Global transfer statistics, from `types.rs` (`GlobalStats`). -/
structure GlobalStats where
  download_speed : Nat
  upload_speed : Nat
  num_active : Nat
  num_waiting : Nat
  num_stopped : Nat
deriving DecidableEq, Repr

/-- Commands sent from a UI to the engine, from `service.rs`
(`EngineCommand`).  The `UpdateConfig` payload (an engine-native
configuration struct) is external to every claim and not modelled. -/
inductive EngineCommand where
  | AddDownload (url : Str) (options : Option FrontendOptions)
  | AddMagnet (uri : Str) (options : Option FrontendOptions)
  | AddTorrent (data : List Nat) (options : Option FrontendOptions)
  | Pause (gid : Str)
  | Resume (gid : Str)
  | Remove (gid : Str) (delete_files : Bool)
  | PauseAll
  | ResumeAll
  | UpdateConfig
  | RefreshDownloads
  | RefreshStats
  | Shutdown
deriving DecidableEq, Repr

/-- Messages sent from the engine to a UI, from `service.rs` (`UiMessage`). -/
inductive UiMessage where
  | DownloadAdded (d : Download)
  | DownloadUpdated (gid : Str) (d : Download)
  | DownloadRemoved (gid : Str)
  | DownloadCompleted (d : Download)
  | DownloadFailed (gid : Str) (message : Str)
  | StatsUpdated (stats : GlobalStats)
  | DownloadsList (ds : List Download)
  | Error (message : Str)
  | EngineReady
deriving DecidableEq, Repr

/-- Model of `restore_incomplete_downloads` from the GTK front-end
(`window/imp.rs`): walk the incomplete records in order and emit the
commands the loop sends over the command channel (HTTP records with a
stored URL become `AddDownload`, magnet records with a stored URI become
`AddMagnet`, torrent and FTP records are skipped with a log line only). -/
def restoreCommands : List Download → List EngineCommand
  | [] => []
  | d :: rest =>
    (match d.download_type with
      | .Http =>
        match d.url with
        | some url => [EngineCommand.AddDownload url none]
        | none => []
      | .Magnet =>
        match d.magnet_uri with
        | some uri => [EngineCommand.AddMagnet uri none]
        | none => []
      | .Torrent => []
      | .Ftp => []) ++ restoreCommands rest

/-- C5: the Restoration Procedure emits, in record order, an add-download
command with the stored URL for each HTTP record that has one and an
add-magnet command with the stored magnet URI for each magnet record that
has one, and emits nothing for records of kind Torrent or FTP. -/
theorem restore_incomplete_contract (l : List Download) :
    restoreCommands l = l.filterMap (fun d =>
      match d.download_type with
      | .Http => d.url.map (fun u => EngineCommand.AddDownload u none)
      | .Magnet => d.magnet_uri.map (fun m => EngineCommand.AddMagnet m none)
      | .Torrent => none
      | .Ftp => none) ∧
    (∀ d u, d.download_type = .Http → d.url = some u →
      restoreCommands [d] = [EngineCommand.AddDownload u none]) ∧
    (∀ d u, d.download_type = .Magnet → d.magnet_uri = some u →
      restoreCommands [d] = [EngineCommand.AddMagnet u none]) ∧
    (∀ d, d.download_type = .Torrent ∨ d.download_type = .Ftp →
      restoreCommands [d] = []) := by
  refine ⟨?_, ?_, ?_, ?_⟩
  · induction l with
    | nil => rfl
    | cons d rest ih =>
      simp only [restoreCommands, List.filterMap_cons]
      cases d.download_type <;> cases hu : d.url <;>
        cases hm : d.magnet_uri <;> simp [ih, hu, hm]
  · intro d u ht hu
    simp [restoreCommands, ht, hu]
  · intro d u ht hu
    simp [restoreCommands, ht, hu]
  · intro d ht
    rcases ht with h | h <;> simp [restoreCommands, h]

/-- C5 witness: a four-record store (waiting HTTP, paused magnet, active
torrent, FTP) restores exactly the HTTP and magnet transfers, in order. -/
theorem restore_incomplete_contract_witness :
    restoreCommands
        [{ Download.dfl with
            download_type := .Http,
            url := some (str "http://a/f"), status := .Waiting },
         { Download.dfl with
            download_type := .Magnet,
            magnet_uri := some (str "magnet:?xt=1"), status := .Paused },
         { Download.dfl with download_type := .Torrent, status := .Active },
         { Download.dfl with download_type := .Ftp, status := .Waiting }]
      = [EngineCommand.AddDownload (str "http://a/f") none,
         EngineCommand.AddMagnet (str "magnet:?xt=1") none] := by
  have h := (restore_incomplete_contract
    [{ Download.dfl with
        download_type := .Http,
        url := some (str "http://a/f"), status := .Waiting },
     { Download.dfl with
        download_type := .Magnet,
        magnet_uri := some (str "magnet:?xt=1"), status := .Paused },
     { Download.dfl with download_type := .Torrent, status := .Active },
     { Download.dfl with download_type := .Ftp, status := .Waiting }]).1
  rw [h]
  rfl

/-- Bounded multi-producer channel buffer (`async_channel::bounded`): a
capacity fixed at creation and the queued messages. -/
structure BoundedChannel (α : Type) where
  capacity : Nat
  buffer : List α
deriving DecidableEq, Repr

/-- Outcome of one `Sender::send(msg).await` step: either the message was
enqueued and the sender continues with the new channel state, or the
channel was full and the sender suspends until a receiver frees capacity. -/
inductive SendOutcome (α : Type) where
  | sent : BoundedChannel α → SendOutcome α
  | wait : SendOutcome α
deriving DecidableEq, Repr

/-- Model of `async_channel::Sender::send(msg).await` on a bounded channel:
append when there is free capacity, otherwise the sender suspends — the
message is never dropped and the channel is never left partially changed. -/
def channelSend {α : Type} (ch : BoundedChannel α) (m : α) : SendOutcome α :=
  if ch.buffer.length < ch.capacity then
    SendOutcome.sent { ch with buffer := ch.buffer ++ [m] }
  else SendOutcome.wait

/-- Engine events consumed by the bridge loop (`gosh_dl::DownloadEvent`,
restricted to the constructors `handle_engine_event` matches on; the
download id is carried in its `as_uuid().to_string()` form). -/
inductive DownloadEvent where
  | Completed (id : Str)
  | Failed (id : Str) (error : Str)
  | Progress (id : Str)
  | Removed (id : Str)
  | Other
deriving DecidableEq, Repr

/-- Message selection of `handle_engine_event` in `service.rs`: which
`UiMessage`, if any, the handler forwards for an engine event, given the
adapter's status lookup (`adapter.get_status`). -/
def handle_engine_event_msg (getStatus : Str → Option Download) :
    DownloadEvent → Option UiMessage
  | .Completed id => (getStatus id).map (fun d => UiMessage.DownloadCompleted d)
  | .Failed id err => some (UiMessage.DownloadFailed id err)
  | .Progress id => (getStatus id).map (fun d => UiMessage.DownloadUpdated id d)
  | .Removed _ => none
  | .Other => none

/-- Outcome of the bridge loop processing one engine event: the loop
continues with the (possibly extended) UI channel, or it is suspended
inside `ui_sender.send(..).await` because the channel is full. -/
inductive ForwardOutcome where
  | continued : BoundedChannel UiMessage → ForwardOutcome
  | suspended : ForwardOutcome
deriving DecidableEq, Repr

/-- Model of `handle_engine_event` in `service.rs`: select the message for
the event and forward it with an awaiting `send` on the bounded UI channel
(the source awaits `ui_sender.send(msg)`; there is no `try_send` and no
drop-with-warning path). -/
def handle_engine_event (ch : BoundedChannel UiMessage)
    (getStatus : Str → Option Download) (ev : DownloadEvent) : ForwardOutcome :=
  match handle_engine_event_msg getStatus ev with
  | none => ForwardOutcome.continued ch
  | some m =>
    match channelSend ch m with
    | SendOutcome.sent ch2 => ForwardOutcome.continued ch2
    | SendOutcome.wait => ForwardOutcome.suspended

/-- C3 counterexample: with a full UI event channel (capacity 1, one queued
message) and a failure event to forward, `handle_engine_event` suspends in
the awaiting send; it does not drop the event and continue with the channel
unchanged, contradicting the claim that a full channel causes a
drop-with-warning and an immediate continue. -/
theorem bridge_full_channel_blocks_counterexample :
    handle_engine_event ⟨1, [UiMessage.EngineReady]⟩ (fun _ => none)
        (DownloadEvent.Failed (str "gid-1") (str "boom"))
      = ForwardOutcome.suspended ∧
    handle_engine_event ⟨1, [UiMessage.EngineReady]⟩ (fun _ => none)
        (DownloadEvent.Failed (str "gid-1") (str "boom"))
      ≠ ForwardOutcome.continued ⟨1, [UiMessage.EngineReady]⟩ := by
  constructor
  · rfl
  · intro h
    cases h

/-- C3 (amended): forwarding an engine event over the UI channel uses an
awaiting send: when the event produces no message the loop continues with
the channel unchanged; when it produces a message and the channel has free
capacity the message is appended and the loop continues; and the loop is
suspended exactly when a message is to be sent and the channel is full — an
event is never dropped. -/
theorem bridge_event_forwarding_contract (ch : BoundedChannel UiMessage)
    (getStatus : Str → Option Download) (ev : DownloadEvent) :
    (handle_engine_event ch getStatus ev = ForwardOutcome.suspended ↔
      (∃ m, handle_engine_event_msg getStatus ev = some m) ∧
        ch.capacity ≤ ch.buffer.length) ∧
    (∀ ch2, handle_engine_event ch getStatus ev = ForwardOutcome.continued ch2 →
      (handle_engine_event_msg getStatus ev = none ∧ ch2 = ch) ∨
      (∃ m, handle_engine_event_msg getStatus ev = some m ∧
        ch2.buffer = ch.buffer ++ [m])) := by
  unfold handle_engine_event channelSend
  cases hm : handle_engine_event_msg getStatus ev with
  | none =>
    constructor
    · constructor
      · intro h; cases h
      · rintro ⟨⟨m, hsome⟩, _⟩; cases hsome
    · intro ch2 h
      left
      exact ⟨rfl, (ForwardOutcome.continued.inj h).symm⟩
  | some m =>
    by_cases hfull : ch.buffer.length < ch.capacity
    · simp only [hfull, if_true]
      constructor
      · constructor
        · intro h; cases h
        · rintro ⟨-, hge⟩; omega
      · intro ch2 h
        right
        exact ⟨m, rfl, by rw [← (ForwardOutcome.continued.inj h)]⟩
    · simp only [hfull, if_false]
      constructor
      · constructor
        · intro _; exact ⟨⟨m, rfl⟩, by omega⟩
        · intro _; trivial
      · intro ch2 h; cases h

/-- C3 witness: the amended contract applied at concrete inputs — a full
channel with a failure event suspends the loop, and a no-message event on
the same channel continues with the channel unchanged. -/
theorem bridge_event_forwarding_contract_witness :
    (handle_engine_event ⟨1, [UiMessage.EngineReady]⟩ (fun _ => none)
        (DownloadEvent.Failed (str "g") (str "e"))
      = ForwardOutcome.suspended) ∧
    ((handle_engine_event_msg (fun _ : Str => (none : Option Download))
        (DownloadEvent.Removed (str "g")) = none ∧
      (⟨1, [UiMessage.EngineReady]⟩ : BoundedChannel UiMessage)
        = ⟨1, [UiMessage.EngineReady]⟩) ∨
     (∃ m, handle_engine_event_msg (fun _ : Str => (none : Option Download))
        (DownloadEvent.Removed (str "g")) = some m ∧
      (⟨1, [UiMessage.EngineReady]⟩ : BoundedChannel UiMessage).buffer
        = (⟨1, [UiMessage.EngineReady]⟩ : BoundedChannel UiMessage).buffer
          ++ [m])) := by
  constructor
  · exact (bridge_event_forwarding_contract ⟨1, [UiMessage.EngineReady]⟩
      (fun _ => none) (DownloadEvent.Failed (str "g") (str "e"))).1.mpr
      ⟨⟨UiMessage.DownloadFailed (str "g") (str "e"), rfl⟩, by decide⟩
  · exact (bridge_event_forwarding_contract ⟨1, [UiMessage.EngineReady]⟩
      (fun _ => none) (DownloadEvent.Removed (str "g"))).2
      ⟨1, [UiMessage.EngineReady]⟩ rfl

/-- Stored tracker state: the `trackers` table rows (url, enabled flag) and
the single `tracker_meta.last_updated` value. -/
structure TrackerState where
  trackers : List (Str × Bool)
  last_updated : Option Str
deriving DecidableEq, Repr

/-- Statements executed inside the `replace_all` transaction of
`settings.rs` (`TrackersDb::replace_all`): delete all rows, insert each new
tracker as enabled, touch the last-updated timestamp. -/
inductive TrackerTxOp where
  | deleteAll
  | insertTracker (url : Str)
  | touchMeta (now : Str)
deriving DecidableEq, Repr

/-- Effect of one transaction statement on the tracker state. -/
def applyTrackerOp (st : TrackerState) : TrackerTxOp → TrackerState
  | .deleteAll => { st with trackers := [] }
  | .insertTracker url => { st with trackers := st.trackers ++ [(url, true)] }
  | .touchMeta now => { st with last_updated := some now }

/-- Statement list of the `replace_all` transaction, in source order. -/
def replaceAllOps (trackers : List Str) (now : Str) : List TrackerTxOp :=
  TrackerTxOp.deleteAll ::
    (trackers.map TrackerTxOp.insertTracker ++ [TrackerTxOp.touchMeta now])

/-- Model of `TrackersDb::replace_all`: the statements run inside a single
SQLite transaction, so the observable state is the prior state if the
transaction is interrupted before commit (`committed = false`, rollback)
and the fully applied state otherwise; `now` stands for the
`CURRENT_TIMESTAMP` written to `tracker_meta`. -/
def TrackersDb.replace_all (st : TrackerState) (trackers : List Str)
    (now : Str) (committed : Bool) : TrackerState :=
  if committed then (replaceAllOps trackers now).foldl applyTrackerOp st
  else st

/-- Helper: folding the insert statements appends exactly the new rows. -/
theorem foldl_insertTracker (l : List Str) (st : TrackerState) :
    (l.map TrackerTxOp.insertTracker).foldl applyTrackerOp st
      = { st with trackers := st.trackers ++ l.map (fun u => (u, true)) } := by
  induction l generalizing st with
  | nil => simp
  | cons u t ih =>
    simp only [List.map_cons, List.foldl_cons, ih, applyTrackerOp]
    simp

/-- C6: `TrackersDb::replace_all` is all-or-nothing — for every prior state
and every new list, an uncommitted (interrupted) run leaves the stored
tracker list and timestamp exactly as they were, and a committed run leaves
the stored set exactly the new list (each entry enabled) with the
last-updated timestamp refreshed; no partially replaced table is ever an
outcome. -/
theorem trackers_replace_all_atomic (st : TrackerState) (trackers : List Str)
    (now : Str) :
    TrackersDb.replace_all st trackers now false = st ∧
    TrackersDb.replace_all st trackers now true
      = { trackers := trackers.map (fun u => (u, true)),
          last_updated := some now } ∧
    ∀ c : Bool, TrackersDb.replace_all st trackers now c = st ∨
      TrackersDb.replace_all st trackers now c
        = { trackers := trackers.map (fun u => (u, true)),
            last_updated := some now } := by
  have hcommit : TrackersDb.replace_all st trackers now true
      = { trackers := trackers.map (fun u => (u, true)),
          last_updated := some now } := by
    unfold TrackersDb.replace_all replaceAllOps
    simp only [if_true, List.foldl_cons, List.foldl_append]
    rw [show applyTrackerOp st TrackerTxOp.deleteAll
        = { st with trackers := [] } from rfl]
    rw [foldl_insertTracker]
    rfl
  refine ⟨rfl, hcommit, ?_⟩
  intro c
  cases c
  · left; rfl
  · right; exact hcommit

/-- Helper: `digitChar` always yields an ASCII digit. -/
theorem digitVal_digitChar_isSome (d : Nat) :
    (digitVal (digitChar d)).isSome = true := by
  rcases d with _|_|_|_|_|_|_|_|_|d <;> rfl

/-- Helper: for `d < 10`, `digitChar` round-trips through `digitVal`. -/
theorem digitVal_digitChar (d : Nat) (h : d < 10) :
    digitVal (digitChar d) = some d := by
  interval_cases d <;> rfl

/-- Helper: digit accumulation splits over list append. -/
theorem digitsValAux_append (xs ys : Str) (a : Nat) :
    digitsValAux (xs ++ ys) a
      = match digitsValAux xs a with
        | some w => digitsValAux ys w
        | none => none := by
  induction xs generalizing a with
  | nil => simp [digitsValAux]
  | cons c t ih =>
    simp only [List.cons_append, digitsValAux]
    cases digitVal c with
    | none => rfl
    | some d => exact ih (a * 10 + d)

/-- Helper: extra fuel and the accumulator factor out of the rendering
loop. -/
theorem natDigitsGo_acc (n : Nat) : ∀ fuel acc, n < fuel →
    natDigitsGo fuel n acc = natDigitsGo (n + 1) n [] ++ acc := by
  induction n using Nat.strong_induction_on with
  | _ n ih =>
    intro fuel acc hf
    match fuel, hf with
    | f + 1, _ =>
      by_cases h0 : n = 0
      · subst h0
        simp [natDigitsGo]
      · have hdiv : n / 10 < n := Nat.div_lt_self (Nat.pos_of_ne_zero h0) (by omega)
        simp only [natDigitsGo, h0, if_false]
        rw [ih (n / 10) hdiv f (digitChar (n % 10) :: acc) (by omega),
          ih (n / 10) hdiv n [digitChar (n % 10)] (by omega)]
        simp

/-- Helper: the decimal rendering of `n` accumulates back to `n`. -/
theorem digitsVal_natDigits (n : Nat) :
    digitsValAux (natDigits n) 0 = some n := by
  induction n using Nat.strong_induction_on with
  | _ n ih =>
    by_cases h0 : n = 0
    · subst h0; rfl
    · have hdiv : n / 10 < n := Nat.div_lt_self (Nat.pos_of_ne_zero h0) (by omega)
      unfold natDigits
      simp only [h0, if_false, natDigitsGo]
      rw [natDigitsGo_acc (n / 10) n [digitChar (n % 10)] (by omega)]
      rw [digitsValAux_append]
      have hrec : digitsValAux (natDigits (n / 10)) 0 = some (n / 10) := ih (n / 10) hdiv
      by_cases hz : n / 10 = 0
      · rw [hz]
        simp only [natDigitsGo]
        simp [digitsValAux, digitVal_digitChar (n % 10) (by omega)]
        omega
      · unfold natDigits at hrec
        rw [if_neg hz] at hrec
        rw [hrec]
        simp [digitsValAux, digitVal_digitChar (n % 10) (by omega)]
        omega

/-- Helper: every character of a decimal rendering is an ASCII digit. -/
theorem natDigits_digits (n : Nat) :
    ∀ c ∈ natDigits n, (digitVal c).isSome = true := by
  have go : ∀ fuel m acc, (∀ c ∈ acc, (digitVal c).isSome = true) →
      ∀ c ∈ natDigitsGo fuel m acc, (digitVal c).isSome = true := by
    intro fuel
    induction fuel with
    | zero => intro m acc hacc c hc; exact hacc c hc
    | succ f ih =>
      intro m acc hacc c hc
      simp only [natDigitsGo] at hc
      by_cases h0 : m = 0
      · rw [if_pos h0] at hc; exact hacc c hc
      · rw [if_neg h0] at hc
        refine ih (m / 10) (digitChar (m % 10) :: acc) ?_ c hc
        intro x hx
        rcases List.mem_cons.mp hx with h1 | h1
        · subst h1; exact digitVal_digitChar_isSome (m % 10)
        · exact hacc x h1
  intro c hc
  unfold natDigits at hc
  by_cases h0 : n = 0
  · rw [if_pos h0] at hc
    simp at hc
    subst hc; rfl
  · rw [if_neg h0] at hc
    exact go (n + 1) n [] (by intro x hx; cases hx) c hc

/-- Helper: the decimal rendering is never empty. -/
theorem natDigits_ne_nil (n : Nat) : natDigits n ≠ [] := by
  intro h
  have hv := digitsVal_natDigits n
  rw [h] at hv
  simp only [digitsValAux] at hv
  have h0 : n = 0 := by cases hv; rfl
  subst h0
  simp [natDigits] at h

/-- Helper: `u64::to_string` round-trips through `str::parse::<u64>` for
every `u64` value. -/
theorem parseU64_natDigits (n : Nat) (h : n < U64BOUND) :
    parseU64 (natDigits n) = some n := by
  cases hnd : natDigits n with
  | nil => exact absurd hnd (natDigits_ne_nil n)
  | cons c cs =>
    have hdig : (digitVal c).isSome = true :=
      natDigits_digits n c (by rw [hnd]; exact List.mem_cons_self c cs)
    have hplus : ¬ c = '+' := by
      intro he; subst he; simp [digitVal] at hdig
    have hminus : ¬ c = '-' := by
      intro he; subst he; simp [digitVal] at hdig
    have hval : digitsValAux (c :: cs) 0 = some n := by
      rw [← hnd]; exact digitsVal_natDigits n
    unfold parseU64 parseUIntStr
    simp only [hplus, hminus, if_false]
    unfold parseUIntCore
    rw [hval]
    simp [h]

/-- Helper: a separator-free string splits into itself as the only piece. -/
theorem splitOnChar_of_not_mem (sep : Char) (s : Str) (h : sep ∉ s) :
    splitOnChar sep s = [s] := by
  induction s with
  | nil => rfl
  | cons c cs ih =>
    have hc : ¬ c = sep := fun he => h (he ▸ List.mem_cons_self c cs)
    have hcs : sep ∉ cs := fun hm => h (List.mem_cons_of_mem c hm)
    simp only [splitOnChar, hc, if_false, ih hcs]

/-- Helper: splitting a string that starts with a separator-free piece
followed by the separator peels off that piece. -/
theorem splitOnChar_append_sep (sep : Char) (a rest : Str) (h : sep ∉ a) :
    splitOnChar sep (a ++ sep :: rest) = a :: splitOnChar sep rest := by
  induction a with
  | nil => simp [splitOnChar]
  | cons c cs ih =>
    have hc : ¬ c = sep := fun he => h (he ▸ List.mem_cons_self c cs)
    have hcs : sep ∉ cs := fun hm => h (List.mem_cons_of_mem c hm)
    simp only [List.cons_append, splitOnChar, hc, if_false]
    rw [show cs.append (sep :: rest) = cs ++ sep :: rest from rfl, ih hcs]

/-- Helper: a decimal rendering never contains a comma. -/
theorem natDigits_comma_not_mem (n : Nat) : ',' ∉ natDigits n := by
  intro hm
  have := natDigits_digits n ',' hm
  simp [digitVal] at this

/-- Helper: a non-empty selected-files list survives the comma-separated
string encoding used by `DownloadsDb::save` and the decoding used by
`row_to_download` (every `usize` index is below `2 ^ 64`). -/
theorem selected_files_roundtrip (l : List Nat) (h : ∀ i ∈ l, i < U64BOUND) :
    (splitOnChar ',' (joinChar ',' (l.map natDigits))).filterMap parseU64 = l := by
  induction l with
  | nil => rfl
  | cons x xs ih =>
    cases xs with
    | nil =>
      simp only [List.map_cons, List.map_nil, joinChar]
      rw [splitOnChar_of_not_mem ',' (natDigits x) (natDigits_comma_not_mem x)]
      simp [List.filterMap_cons,
        parseU64_natDigits x (h x (List.mem_cons_self x []))]
    | cons y t =>
      simp only [List.map_cons, joinChar]
      rw [splitOnChar_append_sep ',' (natDigits x) _ (natDigits_comma_not_mem x)]
      have hxs : ∀ i ∈ y :: t, i < U64BOUND := by
        intro i hi; exact h i (List.mem_cons_of_mem x hi)
      have ih2 := ih hxs
      simp only [List.map_cons] at ih2
      simp [List.filterMap_cons,
        parseU64_natDigits x (h x (List.mem_cons_self x (y :: t))), ih2]

/-- Model of the Rust cast `u64 as i64` (two's-complement
reinterpretation). -/
def i64OfU64 (v : Nat) : Int :=
  if v < 9223372036854775808 then (v : Int) else (v : Int) - 18446744073709551616

/-- Model of the Rust cast `i64 as u64` (two's-complement
reinterpretation). -/
def u64OfI64 (x : Int) : Nat := (x % 18446744073709551616).toNat

/-- Helper: a `u64` value survives being stored as `i64` and read back. -/
theorem u64OfI64_i64OfU64 (v : Nat) (h : v < U64BOUND) :
    u64OfI64 (i64OfU64 v) = v := by
  unfold u64OfI64 i64OfU64
  unfold U64BOUND at h
  split_ifs with h1 <;> omega

/-- SQLite byte-order comparison of two `TEXT` values (`BINARY` collation;
on valid UTF-8 the byte order coincides with code-point lexicographic
order). -/
def strLe : Str → Str → Bool
  | [], _ => true
  | _ :: _, [] => false
  | a :: as, b :: bs =>
    if a.toNat < b.toNat then true
    else if b.toNat < a.toNat then false
    else strLe as bs

/-- Helper: the byte order is total. -/
theorem strLe_total (a : Str) : ∀ b, strLe a b = true ∨ strLe b a = true := by
  induction a with
  | nil => intro b; left; rfl
  | cons x xs ih =>
    intro b
    cases b with
    | nil => right; rfl
    | cons y ys =>
      simp only [strLe]
      by_cases h1 : x.toNat < y.toNat
      · left; simp [h1]
      · by_cases h2 : y.toNat < x.toNat
        · right; simp [h1, h2]
        · rcases ih ys with h | h
          · left; simp [h1, h2, h]
          · right; simp [h1, h2, h]

/-- Helper: the byte order is transitive. -/
theorem strLe_trans (a : Str) : ∀ b c, strLe a b = true → strLe b c = true →
    strLe a c = true := by
  induction a with
  | nil => intro b c _ _; rfl
  | cons x xs ih =>
    intro b c h1 h2
    cases b with
    | nil => simp [strLe] at h1
    | cons y ys =>
      cases c with
      | nil => simp [strLe] at h2
      | cons z zs =>
        simp only [strLe] at h1 h2 ⊢
        by_cases hxy : x.toNat < y.toNat
        · rw [if_pos hxy] at h1
          by_cases hyz : y.toNat < z.toNat
          · rw [if_pos (show x.toNat < z.toNat by omega)]
          · rw [if_neg hyz] at h2
            by_cases hzy : z.toNat < y.toNat
            · rw [if_pos hzy] at h2; exact absurd h2 (by simp)
            · rw [if_neg hzy] at h2
              rw [if_pos (show x.toNat < z.toNat by omega)]
        · rw [if_neg hxy] at h1
          by_cases hyx : y.toNat < x.toNat
          · rw [if_pos hyx] at h1; exact absurd h1 (by simp)
          · rw [if_neg hyx] at h1
            by_cases hyz : y.toNat < z.toNat
            · rw [if_pos hyz] at h2
              rw [if_pos (show x.toNat < z.toNat by omega)]
            · rw [if_neg hyz] at h2
              by_cases hzy : z.toNat < y.toNat
              · rw [if_pos hzy] at h2; exact absurd h2 (by simp)
              · rw [if_neg hzy] at h2
                rw [if_neg (show ¬ x.toNat < z.toNat by omega),
                  if_neg (show ¬ z.toNat < x.toNat by omega)]
                exact ih ys zs h1 h2

/-- SQLite ordering on a nullable `TEXT` column: `NULL` sorts below every
value. -/
def optStrLe : Option Str → Option Str → Bool
  | none, _ => true
  | some _, none => false
  | some a, some b => strLe a b

/-- Helper: the nullable byte order is total. -/
theorem optStrLe_total (a b : Option Str) :
    optStrLe a b = true ∨ optStrLe b a = true := by
  cases a with
  | none => left; rfl
  | some x =>
    cases b with
    | none => right; rfl
    | some y => exact strLe_total x y

/-- Helper: the nullable byte order is transitive. -/
theorem optStrLe_trans (a b c : Option Str) (h1 : optStrLe a b = true)
    (h2 : optStrLe b c = true) : optStrLe a c = true := by
  cases a with
  | none => rfl
  | some x =>
    cases b with
    | none => simp [optStrLe] at h1
    | some y =>
      cases c with
      | none => simp [optStrLe] at h2
      | some z => exact strLe_trans x y z h1 h2

/-- One row of the `downloads` table.  The schema file is not under `src/`;
modelled from the spec: the `downloads` table stores all `DownloadRecord`
fields with `gid` unique and an integer storage row id, numeric columns
bound as `i64` by `DownloadsDb::save`, and the selected-files list
serialized as comma-separated integers. -/
structure DownloadRow where
  id : Nat
  gid : Str
  name : Str
  url : Option Str
  magnet_uri : Option Str
  info_hash : Option Str
  download_type : Str
  status : Str
  total_size : Int
  completed_size : Int
  download_speed : Int
  upload_speed : Int
  save_path : Str
  created_at : Str
  completed_at : Option Str
  error_message : Option Str
  selected_files : Option Str
deriving DecidableEq, Repr

/-- The `downloads` table: its rows and the next rowid SQLite will assign
(`INSERT OR REPLACE` deletes a conflicting row and inserts a fresh row with
a fresh rowid). -/
structure DownloadsTable where
  rows : List DownloadRow
  nextId : Nat
deriving DecidableEq, Repr

/-- The row written by `DownloadsDb::save` for a record: enum fields are
stored via their `Display` encodings, `u64` counters via the `as i64` cast,
and the selected-files list joined with commas. -/
def downloadToRow (id : Nat) (d : Download) : DownloadRow :=
  { id := id, gid := d.gid, name := d.name, url := d.url,
    magnet_uri := d.magnet_uri, info_hash := d.info_hash,
    download_type := d.download_type.toStr, status := d.status.toStr,
    total_size := i64OfU64 d.total_size,
    completed_size := i64OfU64 d.completed_size,
    download_speed := i64OfU64 d.download_speed,
    upload_speed := i64OfU64 d.upload_speed,
    save_path := d.save_path, created_at := d.created_at,
    completed_at := d.completed_at, error_message := d.error_message,
    selected_files := d.selected_files.map (fun l =>
      joinChar ',' (l.map natDigits)) }

/-- Model of `row_to_download` from `downloads.rs`: decode the enum columns
with the fallback parsers, cast the counters back with `as u64`, decode the
selected-files string by splitting on commas and dropping unparseable
entries, and reset the non-persisted live fields `connections` and
`seeders` to zero. -/
def row_to_download (r : DownloadRow) : Download :=
  { id := (r.id : Int), gid := r.gid, name := r.name, url := r.url,
    magnet_uri := r.magnet_uri, info_hash := r.info_hash,
    download_type := DownloadType.fromStr r.download_type,
    status := DownloadState.fromStr r.status,
    total_size := u64OfI64 r.total_size,
    completed_size := u64OfI64 r.completed_size,
    download_speed := u64OfI64 r.download_speed,
    upload_speed := u64OfI64 r.upload_speed,
    save_path := r.save_path, created_at := r.created_at,
    completed_at := r.completed_at, error_message := r.error_message,
    connections := 0, seeders := 0,
    selected_files := r.selected_files.map (fun s =>
      (splitOnChar ',' s).filterMap parseU64) }

/-- Model of `DownloadsDb::save` (`INSERT OR REPLACE` keyed by the unique
`gid` column): any prior row with the same gid is removed, the new row is
inserted with a fresh rowid, and that rowid (`last_insert_rowid`) is
returned. -/
def DownloadsDb.save (tbl : DownloadsTable) (d : Download) :
    DownloadsTable × Nat :=
  ({ rows := tbl.rows.filter (fun r => !decide (r.gid = d.gid))
        ++ [downloadToRow tbl.nextId d],
     nextId := tbl.nextId + 1 }, tbl.nextId)

/-- Model of `DownloadsDb::get_by_gid`: the row with the given gid, decoded,
or `none`. -/
def DownloadsDb.get_by_gid (tbl : DownloadsTable) (gid : Str) :
    Option Download :=
  (tbl.rows.find? (fun r => decide (r.gid = gid))).map row_to_download

/-- Descending order on rows by completion timestamp (`ORDER BY
completed_at DESC`; `NULL` sorts last in a descending order). -/
def rowCompletedDescLe (a b : DownloadRow) : Prop :=
  optStrLe b.completed_at a.completed_at = true

instance : DecidableRel rowCompletedDescLe := fun a b =>
  inferInstanceAs (Decidable (optStrLe b.completed_at a.completed_at = true))

instance : IsTotal DownloadRow rowCompletedDescLe :=
  ⟨fun a b => (optStrLe_total b.completed_at a.completed_at).imp id id⟩

instance : IsTrans DownloadRow rowCompletedDescLe :=
  ⟨fun a b c h1 h2 =>
    optStrLe_trans c.completed_at b.completed_at a.completed_at h2 h1⟩

/-- Descending order on rows by creation timestamp (`ORDER BY created_at
DESC`). -/
def rowCreatedDescLe (a b : DownloadRow) : Prop :=
  strLe b.created_at a.created_at = true

instance : DecidableRel rowCreatedDescLe := fun a b =>
  inferInstanceAs (Decidable (strLe b.created_at a.created_at = true))

instance : IsTotal DownloadRow rowCreatedDescLe :=
  ⟨fun a b => (strLe_total b.created_at a.created_at).imp id id⟩

instance : IsTrans DownloadRow rowCreatedDescLe :=
  ⟨fun a b c h1 h2 =>
    strLe_trans c.created_at b.created_at a.created_at h2 h1⟩

/-- Model of `DownloadsDb::get_completed`: rows whose stored status text is
exactly `complete`, ordered by completion timestamp descending, at most
`limit` rows (SQLite treats a negative `LIMIT` as no limit), decoded. -/
def DownloadsDb.get_completed (tbl : DownloadsTable) (limit : Int) :
    List Download :=
  let sorted := List.insertionSort rowCompletedDescLe
    (tbl.rows.filter (fun r => decide (r.status = str "complete")))
  (sorted.take (if limit < 0 then sorted.length else limit.toNat)).map
    row_to_download

/-- Model of `DownloadsDb::get_incomplete`: rows whose stored status text is
neither `complete` nor `removed`, ordered by creation timestamp descending,
decoded. -/
def DownloadsDb.get_incomplete (tbl : DownloadsTable) : List Download :=
  (List.insertionSort rowCreatedDescLe
    (tbl.rows.filter (fun r =>
      !decide (r.status = str "complete") && !decide (r.status = str "removed")))).map
    row_to_download

/-- Helper: searching an appended list skips a prefix with no match. -/
theorem find?_append_of_none {α : Type} (p : α → Bool) (xs ys : List α)
    (h : xs.find? p = none) : (xs ++ ys).find? p = ys.find? p := by
  induction xs with
  | nil => rfl
  | cons x t ih =>
    cases hp : p x with
    | true => simp [List.find?_cons, hp] at h
    | false =>
      simp only [List.cons_append, List.find?_cons, hp] at h ⊢
      exact ih h

/-- C1 counterexample: saving a concrete record whose live fields are
non-zero (`connections = 3`, `seeders = 2`, `id = 7`) and reading it back
by gid does not return a field-for-field equal record — the row id replaces
`id` and the live connection and seeder counters are not persisted and come
back as zero. -/
theorem save_get_by_gid_not_identity_counterexample :
    DownloadsDb.get_by_gid
        (DownloadsDb.save { rows := [], nextId := 1 }
          { Download.dfl with
              gid := str "g1", id := 7, connections := 3, seeders := 2,
              selected_files := some [1, 2] }).1 (str "g1")
      ≠ some { Download.dfl with
              gid := str "g1", id := 7, connections := 3, seeders := 2,
              selected_files := some [1, 2] } := by
  decide

/-- C1 (amended): saving a `DownloadRecord` and reading it back by its gid
yields a record that agrees with the saved one on every persisted field —
including a non-empty selected-files list surviving the comma-separated
encoding — while `id` becomes the storage row id returned by `save` and the
non-persisted live counters `connections` and `seeders` are reset to zero. -/
theorem save_get_by_gid_roundtrip (tbl : DownloadsTable) (d : Download)
    (h1 : d.total_size < U64BOUND) (h2 : d.completed_size < U64BOUND)
    (h3 : d.download_speed < U64BOUND) (h4 : d.upload_speed < U64BOUND)
    (h5 : ∀ l, d.selected_files = some l → ∀ i ∈ l, i < U64BOUND) :
    DownloadsDb.get_by_gid (DownloadsDb.save tbl d).1 d.gid
      = some { d with
          id := ((DownloadsDb.save tbl d).2 : Int),
          connections := 0, seeders := 0 } := by
  have hsel : (d.selected_files.map (fun l =>
      joinChar ',' (l.map natDigits))).map (fun s =>
        (splitOnChar ',' s).filterMap parseU64) = d.selected_files := by
    cases hds : d.selected_files with
    | none => rfl
    | some l =>
      simp only [Option.map_some']
      rw [selected_files_roundtrip l (h5 l hds)]
  unfold DownloadsDb.get_by_gid DownloadsDb.save
  simp only
  rw [find?_append_of_none _ _ _ ?hnone]
  case hnone =>
    rw [List.find?_eq_none]
    intro r hr
    have hmem := List.mem_filter.mp hr
    simpa using hmem.2
  rw [List.find?_cons]
  have hp : decide ((downloadToRow tbl.nextId d).gid = d.gid) = true := by
    simp [downloadToRow]
  rw [hp]
  simp only [Option.map_some']
  rw [show row_to_download (downloadToRow tbl.nextId d)
      = { id := (tbl.nextId : Int), gid := d.gid, name := d.name,
          url := d.url, magnet_uri := d.magnet_uri, info_hash := d.info_hash,
          download_type := DownloadType.fromStr d.download_type.toStr,
          status := DownloadState.fromStr d.status.toStr,
          total_size := u64OfI64 (i64OfU64 d.total_size),
          completed_size := u64OfI64 (i64OfU64 d.completed_size),
          download_speed := u64OfI64 (i64OfU64 d.download_speed),
          upload_speed := u64OfI64 (i64OfU64 d.upload_speed),
          save_path := d.save_path, created_at := d.created_at,
          completed_at := d.completed_at, error_message := d.error_message,
          connections := 0, seeders := 0,
          selected_files := (d.selected_files.map (fun l =>
            joinChar ',' (l.map natDigits))).map (fun s =>
              (splitOnChar ',' s).filterMap parseU64) } from rfl]
  rw [type_fromStr_toStr, state_fromStr_toStr,
    u64OfI64_i64OfU64 d.total_size h1, u64OfI64_i64OfU64 d.completed_size h2,
    u64OfI64_i64OfU64 d.download_speed h3, u64OfI64_i64OfU64 d.upload_speed h4,
    hsel]

/-- C1 witness: the amended round-trip applied to a concrete record with a
non-empty selected-files list. -/
theorem save_get_by_gid_roundtrip_witness :
    DownloadsDb.get_by_gid
        (DownloadsDb.save { rows := [], nextId := 1 }
          { Download.dfl with
              gid := str "g2", name := str "file.iso",
              url := some (str "http://x/file.iso"),
              download_type := .Http, status := .Paused,
              total_size := 1000, completed_size := 300,
              created_at := str "2024-01-01T00:00:00",
              selected_files := some [0, 2, 5] }).1 (str "g2")
      = some { Download.dfl with
              gid := str "g2", name := str "file.iso",
              url := some (str "http://x/file.iso"),
              download_type := .Http, status := .Paused,
              total_size := 1000, completed_size := 300,
              created_at := str "2024-01-01T00:00:00",
              selected_files := some [0, 2, 5],
              id := ((DownloadsDb.save { rows := [], nextId := 1 }
                { Download.dfl with
                    gid := str "g2", name := str "file.iso",
                    url := some (str "http://x/file.iso"),
                    download_type := .Http, status := .Paused,
                    total_size := 1000, completed_size := 300,
                    created_at := str "2024-01-01T00:00:00",
                    selected_files := some [0, 2, 5] }).2 : Int),
              connections := 0, seeders := 0 } :=
  save_get_by_gid_roundtrip { rows := [], nextId := 1 }
    { Download.dfl with
        gid := str "g2", name := str "file.iso",
        url := some (str "http://x/file.iso"),
        download_type := .Http, status := .Paused,
        total_size := 1000, completed_size := 300,
        created_at := str "2024-01-01T00:00:00",
        selected_files := some [0, 2, 5] }
    (by decide) (by decide) (by decide) (by decide)
    (by intro l hl; cases hl; decide)

/-- Well-formedness of a stored downloads table: every row's status text is
one of the canonical `Display` encodings, as written by `DownloadsDb::save`,
`update_status` and `mark_completed`. -/
def DownloadsTable.WfStatus (tbl : DownloadsTable) : Prop :=
  ∀ r ∈ tbl.rows, r.status ∈ [str "active", str "waiting", str "paused",
    str "complete", str "error", str "removed"]

/-- Helper: on canonical status texts, the raw string filter of
`get_incomplete` agrees with filtering on the decoded state. -/
theorem status_filter_agrees (s : Str)
    (h : s ∈ [str "active", str "waiting", str "paused", str "complete",
      str "error", str "removed"]) :
    (!decide (s = str "complete") && !decide (s = str "removed"))
      = (!decide (DownloadState.fromStr s = .Complete)
          && !decide (DownloadState.fromStr s = .Removed)) := by
  simp only [List.mem_cons, List.not_mem_nil, or_false] at h
  rcases h with h | h | h | h | h | h <;> subst h <;> decide

/-- C4: `get_completed` returns only records decoding to state Complete,
ordered by completion timestamp descending, with at most `limit` rows; and
on a well-formed table `get_incomplete` returns exactly (a permutation of)
the stored records whose decoded state is neither Complete nor Removed,
ordered by creation timestamp descending. -/
theorem get_completed_incomplete_contract (tbl : DownloadsTable)
    (limit : Int) (hlim : 0 ≤ limit) (hwf : tbl.WfStatus) :
    ((DownloadsDb.get_completed tbl limit).length : Int) ≤ limit ∧
    (∀ d ∈ DownloadsDb.get_completed tbl limit, d.status = .Complete) ∧
    List.Sorted (fun a b : Download =>
      optStrLe b.completed_at a.completed_at = true)
      (DownloadsDb.get_completed tbl limit) ∧
    (DownloadsDb.get_incomplete tbl).Perm
      ((tbl.rows.filter (fun r =>
        !decide (DownloadState.fromStr r.status = .Complete)
          && !decide (DownloadState.fromStr r.status = .Removed))).map
        row_to_download) ∧
    (∀ d ∈ DownloadsDb.get_incomplete tbl,
      d.status ≠ .Complete ∧ d.status ≠ .Removed) ∧
    List.Sorted (fun a b : Download =>
      strLe b.created_at a.created_at = true)
      (DownloadsDb.get_incomplete tbl) := by
  have hnneg : ¬ limit < 0 := by omega
  refine ⟨?_, ?_, ?_, ?_, ?_, ?_⟩
  · unfold DownloadsDb.get_completed
    simp only [hnneg, if_false, List.length_map]
    have hle : ((List.insertionSort rowCompletedDescLe
        (tbl.rows.filter (fun r => decide (r.status = str "complete")))).take
          limit.toNat).length ≤ limit.toNat := by
      rw [List.length_take]; exact min_le_left _ _
    calc (((List.insertionSort rowCompletedDescLe
        (tbl.rows.filter (fun r => decide (r.status = str "complete")))).take
          limit.toNat).length : Int)
        ≤ (limit.toNat : Int) := by exact_mod_cast hle
      _ = limit := Int.toNat_of_nonneg hlim
  · intro d hd
    unfold DownloadsDb.get_completed at hd
    simp only at hd
    obtain ⟨r, hr, hrd⟩ := List.mem_map.mp hd
    have hr2 : r ∈ List.insertionSort rowCompletedDescLe
        (tbl.rows.filter (fun r => decide (r.status = str "complete"))) :=
      List.take_sublist _ _ |>.mem hr
    have hr3 : r ∈ tbl.rows.filter (fun r =>
        decide (r.status = str "complete")) :=
      (List.perm_insertionSort rowCompletedDescLe _).mem_iff.mp hr2
    have hst : r.status = str "complete" := by
      have := (List.mem_filter.mp hr3).2
      simpa using this
    rw [← hrd]
    show DownloadState.fromStr r.status = .Complete
    rw [hst]
    decide
  · unfold DownloadsDb.get_completed
    simp only
    exact @List.Pairwise.map Download DownloadRow rowCompletedDescLe _ _
      row_to_download (fun a b hab => hab)
      (List.Pairwise.sublist (List.take_sublist _ _)
        (List.sorted_insertionSort rowCompletedDescLe _))
  · unfold DownloadsDb.get_incomplete
    refine List.Perm.map row_to_download ?_
    have hperm := List.perm_insertionSort rowCreatedDescLe
      (tbl.rows.filter (fun r =>
        !decide (r.status = str "complete")
          && !decide (r.status = str "removed")))
    refine hperm.trans ?_
    rw [List.filter_congr ?_]
    intro r hr
    exact status_filter_agrees r.status (hwf r hr)
  · intro d hd
    unfold DownloadsDb.get_incomplete at hd
    obtain ⟨r, hr, hrd⟩ := List.mem_map.mp hd
    have hr2 : r ∈ tbl.rows.filter (fun r =>
        !decide (r.status = str "complete")
          && !decide (r.status = str "removed")) :=
      (List.perm_insertionSort rowCreatedDescLe _).mem_iff.mp hr
    have hcond := (List.mem_filter.mp hr2).2
    rw [status_filter_agrees r.status (hwf r (List.mem_filter.mp hr2).1)] at hcond
    simp only [Bool.and_eq_true, Bool.not_eq_true', decide_eq_false_iff_not] at hcond
    rw [← hrd]
    exact hcond
  · unfold DownloadsDb.get_incomplete
    exact @List.Pairwise.map Download DownloadRow rowCreatedDescLe _ _
      row_to_download (fun a b hab => hab)
      (List.sorted_insertionSort rowCreatedDescLe _)

/-- C4 witness: the contract applied to a concrete five-row table holding
two complete rows, a waiting row, an active row and a removed row. -/
theorem get_completed_incomplete_contract_witness :
    ((DownloadsDb.get_completed
        { rows := [
            { id := 1, gid := str "a", name := str "a", url := none,
              magnet_uri := none, info_hash := none,
              download_type := str "http", status := str "complete",
              total_size := 10, completed_size := 10, download_speed := 0,
              upload_speed := 0, save_path := [],
              created_at := str "2024-01-01",
              completed_at := some (str "2024-02-01"), error_message := none,
              selected_files := none },
            { id := 2, gid := str "b", name := str "b", url := none,
              magnet_uri := none, info_hash := none,
              download_type := str "http", status := str "complete",
              total_size := 10, completed_size := 10, download_speed := 0,
              upload_speed := 0, save_path := [],
              created_at := str "2024-01-02",
              completed_at := some (str "2024-03-01"), error_message := none,
              selected_files := none },
            { id := 3, gid := str "c", name := str "c", url := none,
              magnet_uri := none, info_hash := none,
              download_type := str "http", status := str "waiting",
              total_size := 10, completed_size := 0, download_speed := 0,
              upload_speed := 0, save_path := [],
              created_at := str "2024-01-03", completed_at := none,
              error_message := none, selected_files := none },
            { id := 4, gid := str "d", name := str "d", url := none,
              magnet_uri := none, info_hash := none,
              download_type := str "magnet", status := str "active",
              total_size := 10, completed_size := 5, download_speed := 0,
              upload_speed := 0, save_path := [],
              created_at := str "2024-01-04", completed_at := none,
              error_message := none, selected_files := none },
            { id := 5, gid := str "e", name := str "e", url := none,
              magnet_uri := none, info_hash := none,
              download_type := str "http", status := str "removed",
              total_size := 10, completed_size := 0, download_speed := 0,
              upload_speed := 0, save_path := [],
              created_at := str "2024-01-05", completed_at := none,
              error_message := none, selected_files := none }],
          nextId := 6 } 10).length : Int) ≤ 10 ∧
    ∀ d ∈ DownloadsDb.get_incomplete
        { rows := [
            { id := 3, gid := str "c", name := str "c", url := none,
              magnet_uri := none, info_hash := none,
              download_type := str "http", status := str "waiting",
              total_size := 10, completed_size := 0, download_speed := 0,
              upload_speed := 0, save_path := [],
              created_at := str "2024-01-03", completed_at := none,
              error_message := none, selected_files := none },
            { id := 5, gid := str "e", name := str "e", url := none,
              magnet_uri := none, info_hash := none,
              download_type := str "http", status := str "removed",
              total_size := 10, completed_size := 0, download_speed := 0,
              upload_speed := 0, save_path := [],
              created_at := str "2024-01-05", completed_at := none,
              error_message := none, selected_files := none }],
          nextId := 6 },
      d.status ≠ .Complete ∧ d.status ≠ .Removed := by
  constructor
  · exact (get_completed_incomplete_contract _ 10 (by decide)
      (by intro r hr; fin_cases hr <;> decide)).1
  · exact (get_completed_incomplete_contract _ 0 (by decide)
      (by intro r hr; fin_cases hr <;> decide)).2.2.2.2.1

/-- Application settings, from `types.rs` (`Settings`) extended with the
proxy/segment/preallocation fields that `SettingsDb::load` and `save`
read and write; the extended struct definition itself is not under `src/`. -/
structure Settings where
  download_path : Str
  max_concurrent_downloads : Nat
  max_connections_per_server : Nat
  split_count : Nat
  download_speed_limit : Nat
  upload_speed_limit : Nat
  user_agent : Str
  enable_notifications : Bool
  close_to_tray : Bool
  bt_enable_dht : Bool
  bt_enable_pex : Bool
  bt_enable_lpd : Bool
  bt_max_peers : Nat
  bt_seed_ratio : F64
  auto_update_trackers : Bool
  delete_files_on_remove : Bool
  proxy_enabled : Bool
  proxy_type : Str
  proxy_url : Str
  proxy_user : Option Str
  proxy_pass : Option Str
  min_segment_size : Nat
  bt_preallocation : Str
deriving DecidableEq, Repr

/-- Default settings, from `impl Default for Settings` in `types.rs`; the
download path comes from the environment (`dirs::download_dir`) and is a
parameter.  Modelled from the spec: the defaults of the proxy, segment and
preallocation fields belong to the extended struct variant missing from
`src/`; they are given neutral values here (no claim depends on them, and
`min_segment_size = 1024` matches the fallback in `SettingsDb::load`). -/
def settingsDefault (downloadPath : Str) : Settings :=
  { download_path := downloadPath, max_concurrent_downloads := 5,
    max_connections_per_server := 16, split_count := 16,
    download_speed_limit := 0, upload_speed_limit := 0,
    user_agent := str "gosh-dl/0.1.0", enable_notifications := true,
    close_to_tray := true, bt_enable_dht := true, bt_enable_pex := true,
    bt_enable_lpd := true, bt_max_peers := 55, bt_seed_ratio := F64.num 1,
    auto_update_trackers := true, delete_files_on_remove := false,
    proxy_enabled := false, proxy_type := [], proxy_url := [],
    proxy_user := none, proxy_pass := none, min_segment_size := 1024,
    bt_preallocation := [] }

/-- Path join used by the `~` expansion (`PathBuf::join` then display): a
separator is inserted unless the base already ends with one. -/
def pathJoin (h rest : Str) : Str :=
  if h.getLast? = some '/' then h ++ rest else h ++ '/' :: rest

/-- Tilde expansion of the stored download path in `SettingsDb::load`:
`~/x` becomes `home/x` and a bare `~` becomes the home directory, when a
home directory is known; otherwise the value is kept as stored. -/
def expandTilde (home : Option Str) (v : Str) : Str :=
  if strStartsWith v (str "~/") then
    match home with
    | some h => pathJoin h (v.drop 2)
    | none => v
  else if v = str "~" then
    match home with
    | some h => h
    | none => v
  else v

/-- One key/value row applied to the settings value, from the `match` in
`SettingsDb::load`: numeric fields parse with a hardcoded fallback, boolean
fields compare the stored text against `true`, string fields take the text
as is, proxy credentials drop empty strings, and unknown keys are ignored. -/
def loadStep (home : Option Str) (s : Settings) (k v : Str) : Settings :=
  if k = str "download_path" then { s with download_path := expandTilde home v }
  else if k = str "max_concurrent_downloads" then
    { s with max_concurrent_downloads := (parseU32 v).getD 5 }
  else if k = str "max_connections_per_server" then
    { s with max_connections_per_server := (parseU32 v).getD 16 }
  else if k = str "split_count" then
    { s with split_count := (parseU32 v).getD 16 }
  else if k = str "download_speed_limit" then
    { s with download_speed_limit := (parseU64 v).getD 0 }
  else if k = str "upload_speed_limit" then
    { s with upload_speed_limit := (parseU64 v).getD 0 }
  else if k = str "user_agent" then { s with user_agent := v }
  else if k = str "enable_notifications" then
    { s with enable_notifications := decide (v = str "true") }
  else if k = str "close_to_tray" then
    { s with close_to_tray := decide (v = str "true") }
  else if k = str "bt_enable_dht" then
    { s with bt_enable_dht := decide (v = str "true") }
  else if k = str "bt_enable_pex" then
    { s with bt_enable_pex := decide (v = str "true") }
  else if k = str "bt_enable_lpd" then
    { s with bt_enable_lpd := decide (v = str "true") }
  else if k = str "bt_max_peers" then
    { s with bt_max_peers := (parseU32 v).getD 55 }
  else if k = str "bt_seed_ratio" then
    { s with bt_seed_ratio := (parseF64 v).getD (F64.num 1) }
  else if k = str "auto_update_trackers" then
    { s with auto_update_trackers := decide (v = str "true") }
  else if k = str "delete_files_on_remove" then
    { s with delete_files_on_remove := decide (v = str "true") }
  else if k = str "proxy_enabled" then
    { s with proxy_enabled := decide (v = str "true") }
  else if k = str "proxy_type" then { s with proxy_type := v }
  else if k = str "proxy_url" then { s with proxy_url := v }
  else if k = str "proxy_user" then
    { s with proxy_user := if v.isEmpty then none else some v }
  else if k = str "proxy_pass" then
    { s with proxy_pass := if v.isEmpty then none else some v }
  else if k = str "min_segment_size" then
    { s with min_segment_size := (parseU32 v).getD 1024 }
  else if k = str "bt_preallocation" then { s with bt_preallocation := v }
  else s

/-- Model of `SettingsDb::load`: start from the defaults and apply every
stored key/value row in order (the row list stands for the result of
`SELECT key, value FROM settings`; a duplicate key cannot occur in the
table, but the model is faithful for any row list, with the last occurrence
winning). -/
def SettingsDb.load (downloadPath : Str) (home : Option Str)
    (rows : List (Str × Str)) : Settings :=
  rows.foldl (fun s kv => loadStep home s kv.1 kv.2)
    (settingsDefault downloadPath)

/-- The value of the last row carrying a given key. -/
def lastVal : List (Str × Str) → Str → Option Str
  | [], _ => none
  | kv :: rest, key =>
    match lastVal rest key with
    | some w => some w
    | none => if kv.1 = key then some kv.2 else none

/-- One settings field assembled from the stored rows: the interpretation
of the last stored value for its key, or the current (default) value when
the key is absent. -/
def mergeField {τ : Type} (cur : τ) (interp : Str → τ) (key : Str)
    (rows : List (Str × Str)) : τ :=
  match lastVal rows key with
  | some v => interp v
  | none => cur

/-- Helper: peeling one row off `mergeField`. -/
theorem mergeField_cons {τ : Type} (cur : τ) (interp : Str → τ) (key : Str)
    (kv : Str × Str) (rest : List (Str × Str)) :
    mergeField cur interp key (kv :: rest)
      = mergeField (if kv.1 = key then interp kv.2 else cur) interp key rest := by
  unfold mergeField
  rw [show lastVal (kv :: rest) key
      = (match lastVal rest key with
         | some w => some w
         | none => if kv.1 = key then some kv.2 else none) from rfl]
  cases hl : lastVal rest key with
  | some w => rfl
  | none => by_cases h : kv.1 = key <;> simp [h]

/-- Specification-side reading of `SettingsDb::load`: every field is the
interpretation of the last stored value under its key, with the starting
value kept when the key is absent. -/
def settingsMerge (home : Option Str) (s : Settings)
    (rows : List (Str × Str)) : Settings :=
  { download_path :=
      mergeField s.download_path (expandTilde home) (str "download_path") rows
    max_concurrent_downloads :=
      mergeField s.max_concurrent_downloads (fun v => (parseU32 v).getD 5)
        (str "max_concurrent_downloads") rows
    max_connections_per_server :=
      mergeField s.max_connections_per_server (fun v => (parseU32 v).getD 16)
        (str "max_connections_per_server") rows
    split_count :=
      mergeField s.split_count (fun v => (parseU32 v).getD 16)
        (str "split_count") rows
    download_speed_limit :=
      mergeField s.download_speed_limit (fun v => (parseU64 v).getD 0)
        (str "download_speed_limit") rows
    upload_speed_limit :=
      mergeField s.upload_speed_limit (fun v => (parseU64 v).getD 0)
        (str "upload_speed_limit") rows
    user_agent := mergeField s.user_agent (fun v => v) (str "user_agent") rows
    enable_notifications :=
      mergeField s.enable_notifications (fun v => decide (v = str "true"))
        (str "enable_notifications") rows
    close_to_tray :=
      mergeField s.close_to_tray (fun v => decide (v = str "true"))
        (str "close_to_tray") rows
    bt_enable_dht :=
      mergeField s.bt_enable_dht (fun v => decide (v = str "true"))
        (str "bt_enable_dht") rows
    bt_enable_pex :=
      mergeField s.bt_enable_pex (fun v => decide (v = str "true"))
        (str "bt_enable_pex") rows
    bt_enable_lpd :=
      mergeField s.bt_enable_lpd (fun v => decide (v = str "true"))
        (str "bt_enable_lpd") rows
    bt_max_peers :=
      mergeField s.bt_max_peers (fun v => (parseU32 v).getD 55)
        (str "bt_max_peers") rows
    bt_seed_ratio :=
      mergeField s.bt_seed_ratio (fun v => (parseF64 v).getD (F64.num 1))
        (str "bt_seed_ratio") rows
    auto_update_trackers :=
      mergeField s.auto_update_trackers (fun v => decide (v = str "true"))
        (str "auto_update_trackers") rows
    delete_files_on_remove :=
      mergeField s.delete_files_on_remove (fun v => decide (v = str "true"))
        (str "delete_files_on_remove") rows
    proxy_enabled :=
      mergeField s.proxy_enabled (fun v => decide (v = str "true"))
        (str "proxy_enabled") rows
    proxy_type := mergeField s.proxy_type (fun v => v) (str "proxy_type") rows
    proxy_url := mergeField s.proxy_url (fun v => v) (str "proxy_url") rows
    proxy_user :=
      mergeField s.proxy_user (fun v => if v.isEmpty then none else some v)
        (str "proxy_user") rows
    proxy_pass :=
      mergeField s.proxy_pass (fun v => if v.isEmpty then none else some v)
        (str "proxy_pass") rows
    min_segment_size :=
      mergeField s.min_segment_size (fun v => (parseU32 v).getD 1024)
        (str "min_segment_size") rows
    bt_preallocation :=
      mergeField s.bt_preallocation (fun v => v) (str "bt_preallocation") rows }

/-- Helper: one load step written field-by-field. -/
theorem loadStep_eq_fields (home : Option Str) (s : Settings) (k v : Str) :
    loadStep home s k v =
      { download_path := if k = str "download_path" then expandTilde home v
          else s.download_path
        max_concurrent_downloads := if k = str "max_concurrent_downloads" then
          (parseU32 v).getD 5 else s.max_concurrent_downloads
        max_connections_per_server := if k = str "max_connections_per_server" then
          (parseU32 v).getD 16 else s.max_connections_per_server
        split_count := if k = str "split_count" then (parseU32 v).getD 16
          else s.split_count
        download_speed_limit := if k = str "download_speed_limit" then
          (parseU64 v).getD 0 else s.download_speed_limit
        upload_speed_limit := if k = str "upload_speed_limit" then
          (parseU64 v).getD 0 else s.upload_speed_limit
        user_agent := if k = str "user_agent" then v else s.user_agent
        enable_notifications := if k = str "enable_notifications" then
          decide (v = str "true") else s.enable_notifications
        close_to_tray := if k = str "close_to_tray" then
          decide (v = str "true") else s.close_to_tray
        bt_enable_dht := if k = str "bt_enable_dht" then
          decide (v = str "true") else s.bt_enable_dht
        bt_enable_pex := if k = str "bt_enable_pex" then
          decide (v = str "true") else s.bt_enable_pex
        bt_enable_lpd := if k = str "bt_enable_lpd" then
          decide (v = str "true") else s.bt_enable_lpd
        bt_max_peers := if k = str "bt_max_peers" then (parseU32 v).getD 55
          else s.bt_max_peers
        bt_seed_ratio := if k = str "bt_seed_ratio" then
          (parseF64 v).getD (F64.num 1) else s.bt_seed_ratio
        auto_update_trackers := if k = str "auto_update_trackers" then
          decide (v = str "true") else s.auto_update_trackers
        delete_files_on_remove := if k = str "delete_files_on_remove" then
          decide (v = str "true") else s.delete_files_on_remove
        proxy_enabled := if k = str "proxy_enabled" then
          decide (v = str "true") else s.proxy_enabled
        proxy_type := if k = str "proxy_type" then v else s.proxy_type
        proxy_url := if k = str "proxy_url" then v else s.proxy_url
        proxy_user := if k = str "proxy_user" then
          (if v.isEmpty then none else some v) else s.proxy_user
        proxy_pass := if k = str "proxy_pass" then
          (if v.isEmpty then none else some v) else s.proxy_pass
        min_segment_size := if k = str "min_segment_size" then
          (parseU32 v).getD 1024 else s.min_segment_size
        bt_preallocation := if k = str "bt_preallocation" then v
          else s.bt_preallocation } := by
  unfold loadStep
  by_cases h1 : k = str "download_path"
  · subst h1; rfl
  rw [if_neg h1]
  by_cases h2 : k = str "max_concurrent_downloads"
  · subst h2; rfl
  rw [if_neg h2]
  by_cases h3 : k = str "max_connections_per_server"
  · subst h3; rfl
  rw [if_neg h3]
  by_cases h4 : k = str "split_count"
  · subst h4; rfl
  rw [if_neg h4]
  by_cases h5 : k = str "download_speed_limit"
  · subst h5; rfl
  rw [if_neg h5]
  by_cases h6 : k = str "upload_speed_limit"
  · subst h6; rfl
  rw [if_neg h6]
  by_cases h7 : k = str "user_agent"
  · subst h7; rfl
  rw [if_neg h7]
  by_cases h8 : k = str "enable_notifications"
  · subst h8; rfl
  rw [if_neg h8]
  by_cases h9 : k = str "close_to_tray"
  · subst h9; rfl
  rw [if_neg h9]
  by_cases h10 : k = str "bt_enable_dht"
  · subst h10; rfl
  rw [if_neg h10]
  by_cases h11 : k = str "bt_enable_pex"
  · subst h11; rfl
  rw [if_neg h11]
  by_cases h12 : k = str "bt_enable_lpd"
  · subst h12; rfl
  rw [if_neg h12]
  by_cases h13 : k = str "bt_max_peers"
  · subst h13; rfl
  rw [if_neg h13]
  by_cases h14 : k = str "bt_seed_ratio"
  · subst h14; rfl
  rw [if_neg h14]
  by_cases h15 : k = str "auto_update_trackers"
  · subst h15; rfl
  rw [if_neg h15]
  by_cases h16 : k = str "delete_files_on_remove"
  · subst h16; rfl
  rw [if_neg h16]
  by_cases h17 : k = str "proxy_enabled"
  · subst h17; rfl
  rw [if_neg h17]
  by_cases h18 : k = str "proxy_type"
  · subst h18; rfl
  rw [if_neg h18]
  by_cases h19 : k = str "proxy_url"
  · subst h19; rfl
  rw [if_neg h19]
  by_cases h20 : k = str "proxy_user"
  · subst h20; rfl
  rw [if_neg h20]
  by_cases h21 : k = str "proxy_pass"
  · subst h21; rfl
  rw [if_neg h21]
  by_cases h22 : k = str "min_segment_size"
  · subst h22; rfl
  rw [if_neg h22]
  by_cases h23 : k = str "bt_preallocation"
  · subst h23; rfl
  rw [if_neg h23]
  simp only [if_neg h1, if_neg h2, if_neg h3, if_neg h4, if_neg h5, if_neg h6,
    if_neg h7, if_neg h8, if_neg h9, if_neg h10, if_neg h11, if_neg h12,
    if_neg h13, if_neg h14, if_neg h15, if_neg h16, if_neg h17, if_neg h18,
    if_neg h19, if_neg h20, if_neg h21, if_neg h22, if_neg h23]

/-- Helper: the load fold computes the last-occurrence merge for every
starting value. -/
theorem load_foldl_eq_merge (home : Option Str) (rows : List (Str × Str)) :
    ∀ s : Settings,
      rows.foldl (fun acc kv => loadStep home acc kv.1 kv.2) s
        = settingsMerge home s rows := by
  induction rows with
  | nil => intro s; rfl
  | cons kv rest ih =>
    intro s
    rw [List.foldl_cons, ih (loadStep home s kv.1 kv.2), loadStep_eq_fields]
    unfold settingsMerge
    simp only [mergeField_cons]

/-- C2 counterexample: a stored boolean key whose value is not a boolean
encoding does not take the hardcoded default of its field — with
`enable_notifications` stored as `banana`, `load` yields `false` although
the field's hardcoded default is `true` (the code compares the text against
`true` instead of falling back on an unparseable boolean). -/
theorem settings_unparseable_bool_counterexample :
    (SettingsDb.load [] none
        [(str "enable_notifications", str "banana")]).enable_notifications
      = false ∧
    (settingsDefault []).enable_notifications = true := by
  constructor
  · decide
  · rfl

/-- C2 (amended): `SettingsDb::load` always returns a full settings value
(it is total) equal to the per-field last-occurrence merge over the stored
rows: a key that is absent leaves its field at the hardcoded default, an
unparseable numeric or floating-point value falls back to the field's
hardcoded default, a string value is taken as stored, but a boolean field
is set to whether the stored text equals `true` — an unrecognized boolean
string yields `false` rather than the field's default. -/
theorem settings_load_contract (downloadPath : Str) (home : Option Str)
    (rows : List (Str × Str)) :
    SettingsDb.load downloadPath home rows
      = settingsMerge home (settingsDefault downloadPath) rows ∧
    (lastVal rows (str "max_concurrent_downloads") = none →
      (SettingsDb.load downloadPath home rows).max_concurrent_downloads = 5) ∧
    (∀ v, lastVal rows (str "split_count") = some v → parseU32 v = none →
      (SettingsDb.load downloadPath home rows).split_count = 16) ∧
    (∀ v, lastVal rows (str "bt_seed_ratio") = some v → parseF64 v = none →
      (SettingsDb.load downloadPath home rows).bt_seed_ratio = F64.num 1) ∧
    (∀ v, lastVal rows (str "user_agent") = some v →
      (SettingsDb.load downloadPath home rows).user_agent = v) ∧
    (∀ v, lastVal rows (str "enable_notifications") = some v →
      (SettingsDb.load downloadPath home rows).enable_notifications
        = decide (v = str "true")) := by
  have hmain : SettingsDb.load downloadPath home rows
      = settingsMerge home (settingsDefault downloadPath) rows :=
    load_foldl_eq_merge home rows (settingsDefault downloadPath)
  refine ⟨hmain, ?_, ?_, ?_, ?_, ?_⟩
  · intro hnone
    rw [hmain]
    show mergeField (settingsDefault downloadPath).max_concurrent_downloads
      (fun v => (parseU32 v).getD 5) (str "max_concurrent_downloads") rows = 5
    unfold mergeField
    rw [hnone]
    rfl
  · intro v hv hp
    rw [hmain]
    show mergeField (settingsDefault downloadPath).split_count
      (fun v => (parseU32 v).getD 16) (str "split_count") rows = 16
    unfold mergeField
    rw [hv]
    simp [hp]
  · intro v hv hp
    rw [hmain]
    show mergeField (settingsDefault downloadPath).bt_seed_ratio
      (fun v => (parseF64 v).getD (F64.num 1)) (str "bt_seed_ratio") rows
        = F64.num 1
    unfold mergeField
    rw [hv]
    simp [hp]
  · intro v hv
    rw [hmain]
    show mergeField (settingsDefault downloadPath).user_agent
      (fun v => v) (str "user_agent") rows = v
    unfold mergeField
    rw [hv]
  · intro v hv
    rw [hmain]
    show mergeField (settingsDefault downloadPath).enable_notifications
      (fun v => decide (v = str "true")) (str "enable_notifications") rows
        = decide (v = str "true")
    unfold mergeField
    rw [hv]

/-- C2 witness: the contract applied to a concrete stored table in which
`split_count` is unparseable, `bt_seed_ratio` is unparseable,
`max_concurrent_downloads` is absent, and `user_agent` is stored. -/
theorem settings_load_contract_witness :
    (SettingsDb.load [] none
        [(str "split_count", str "many"),
         (str "bt_seed_ratio", str "ratio"),
         (str "user_agent", str "curl/8.4.0")]).max_concurrent_downloads = 5 ∧
    (SettingsDb.load [] none
        [(str "split_count", str "many"),
         (str "bt_seed_ratio", str "ratio"),
         (str "user_agent", str "curl/8.4.0")]).split_count = 16 ∧
    (SettingsDb.load [] none
        [(str "split_count", str "many"),
         (str "bt_seed_ratio", str "ratio"),
         (str "user_agent", str "curl/8.4.0")]).bt_seed_ratio = F64.num 1 ∧
    (SettingsDb.load [] none
        [(str "split_count", str "many"),
         (str "bt_seed_ratio", str "ratio"),
         (str "user_agent", str "curl/8.4.0")]).user_agent
      = str "curl/8.4.0" := by
  refine ⟨?_, ?_, ?_, ?_⟩
  · exact (settings_load_contract [] none _).2.1 (by decide)
  · exact (settings_load_contract [] none _).2.2.1 (str "many") (by decide)
      (by decide)
  · exact (settings_load_contract [] none _).2.2.2.1 (str "ratio") (by decide)
      (by decide)
  · exact (settings_load_contract [] none _).2.2.2.2.1 (str "curl/8.4.0")
      (by decide)
